import Mathlib

/-!
Verification development for the pybotters WebSocket client layer (ws.py).

The definitions below are a shallow embedding of ws.py: pure fragments become
Lean functions, the reconnect/backoff loop becomes explicit state passing, and
the concurrent auth-gating discipline becomes a labelled transition system.
Machine floats are modelled as rationals; Python int() truncation is explicit.
Collaborator primitives (HMAC-SHA256, base64, the transport) are opaque
parameters, since ws.py treats them as external libraries.
-/

/-- JSON-like values, modelling the Python dicts passed to send_json.
Objects keep insertion order, as Python dicts do. -/
inductive JVal where
  | jstr (s : String)
  | jint (n : ℤ)
  | jbool (b : Bool)
  | jnull
  | jobj (fields : List (String × JVal))
  | jarr (elems : List JVal)

/-- Association lookup in a JSON object, modelling Python dict indexing
(first binding wins; dicts have unique keys). -/
def jLookup (fields : List (String × JVal)) (k : String) : Option JVal :=
  match fields with
  | [] => none
  | (k0, v0) :: rest => if k0 = k then some v0 else jLookup rest k

/-- Python dict assignment d[k] = v: replaces the binding in place if the key
exists (keeping its position), otherwise appends it. -/
def dictSet (fields : List (String × JVal)) (k : String) (v : JVal) :
    List (String × JVal) :=
  match fields with
  | [] => [(k, v)]
  | (k0, v0) :: rest =>
    if k0 = k then (k0, v) :: rest else (k0, v0) :: dictSet rest k v

/-- Python int() on a float value, modelled on rationals: truncation toward
zero. -/
def pyInt (q : ℚ) : ℤ :=
  if 0 ≤ q then ⌊q⌋ else -⌊-q⌋

/-- Whether a character list starts with the given pattern. -/
def charsStartWith : List Char → List Char → Bool
  | _, [] => true
  | [], _ :: _ => false
  | c :: cs, d :: ds => c == d && charsStartWith cs ds

/-- Whether a character list contains the given pattern as a contiguous
run. -/
def charsContain : List Char → List Char → Bool
  | [], pat => charsStartWith [] pat
  | c :: tl, pat => charsStartWith (c :: tl) pat || charsContain tl pat

/-- Python s.startswith(p). -/
def strStartsWith (s p : String) : Bool :=
  charsStartWith s.data p.data

/-- Python s.endswith(p). -/
def strEndsWith (s p : String) : Bool :=
  charsStartWith s.data.reverse p.data.reverse

/-- Python `sub in s` on strings: substring containment. -/
def strContains (s sub : String) : Bool :=
  charsContain s.data sub.data

/-! ## Backoff state machine (WebSocketApp._run_forever, ws.py lines 129-159)

The loop keeps a mutable backoff_delay, initially BACKOFF_MIN.  On a failed
cycle it sleeps (jittered if backoff_delay still equals BACKOFF_MIN, else
int(backoff_delay) seconds) and then multiplies the delay by BACKOFF_FACTOR,
capping at BACKOFF_MAX.  On a successful cycle it resets the delay to
BACKOFF_MIN. -/

/-- A backoff configuration (BACKOFF_MIN, BACKOFF_MAX, BACKOFF_FACTOR,
BACKOFF_INITIAL), floats modelled as rationals. -/
structure BackoffCfg where
  bmin : ℚ
  bmax : ℚ
  factor : ℚ
  initial : ℚ
deriving DecidableEq

/-- What the supervisor sleeps before the next reconnect attempt: either a
uniformly random duration in [0, bound) or a fixed number of seconds. -/
inductive SleepSpec where
  | jitter (bound : ℚ)
  | fixedSleep (secs : ℚ)
deriving DecidableEq, Repr

/-- The sleep chosen on a failure, given the current backoff_delay
(ws.py lines 147-151). -/
def backoffSleep (cfg : BackoffCfg) (d : ℚ) : SleepSpec :=
  if d = cfg.bmin then .jitter cfg.initial else .fixedSleep ((pyInt d : ℚ))

/-- The backoff_delay update after a failure's sleep (ws.py lines 152-153). -/
def backoffNext (cfg : BackoffCfg) (d : ℚ) : ℚ :=
  min (d * cfg.factor) cfg.bmax

/-- backoff_delay after k consecutive failed cycles, starting from
BACKOFF_MIN (ws.py line 131). -/
def delayAfterFailures (cfg : BackoffCfg) : ℕ → ℚ
  | 0 => cfg.bmin
  | k + 1 => backoffNext cfg (delayAfterFailures cfg k)

/-- The sleep performed after the k-th consecutive failure (k ≥ 1), i.e.
before reconnect attempt k+1. -/
def sleepAfterFailures (cfg : BackoffCfg) (k : ℕ) : SleepSpec :=
  backoffSleep cfg (delayAfterFailures cfg (k - 1))

/-- Outcome of one connect cycle of the supervisor loop. -/
inductive CycleOutcome where
  | fail
  | success
deriving DecidableEq

/-- One iteration of _run_forever's while body acting on backoff_delay:
a failure sleeps and grows the delay, a success resets it to BACKOFF_MIN
(ws.py lines 145-155). -/
def runForeverStep (cfg : BackoffCfg) (d : ℚ) :
    CycleOutcome → Option SleepSpec × ℚ
  | .fail => (some (backoffSleep cfg d), backoffNext cfg d)
  | .success => (none, cfg.bmin)

/-! ## Supervisor constructor argument normalization (WebSocketApp.__init__,
ws.py lines 41-103)

Each of the six send/handler keyword arguments accepts None, a single value,
or a list; __init__ normalizes None to [] and a single value to a one-element
list before handing the plans to _run_forever.  The dynamic typing of the
Python parameter is modelled by a three-way sum. -/

/-- One send-plan or handler-plan argument as the caller may pass it:
absent (None), a single value (a bare str / bytes / dict / callable), or a
list of values. -/
inductive PlanArg (α : Type u) where
  | absent
  | single (a : α)
  | many (xs : List α)

/-- The normalization __init__ performs on each of the six plan arguments:
None becomes [], a bare value becomes the one-element list, a list is kept
(ws.py lines 62-90). -/
def normalizePlanArg {α : Type u} : PlanArg α → List α
  | .absent => []
  | .single a => [a]
  | .many xs => xs

/-- The six normalized plans passed by __init__ to _run_forever
(ws.py lines 92-103). -/
structure RunForeverPlans (S B J HS HB HJ : Type) where
  sendStrPlan : List S
  sendBytesPlan : List B
  sendJsonPlan : List J
  hdlrStrPlan : List HS
  hdlrBytesPlan : List HB
  hdlrJsonPlan : List HJ

/-- WebSocketApp.__init__'s plan handling: normalize each of the six
arguments and bundle them for _run_forever. -/
def WebSocketApp.initPlans {S B J HS HB HJ : Type}
    (sendStrArg : PlanArg S) (sendBytesArg : PlanArg B) (sendJsonArg : PlanArg J)
    (hdlrStrArg : PlanArg HS) (hdlrBytesArg : PlanArg HB) (hdlrJsonArg : PlanArg HJ) :
    RunForeverPlans S B J HS HB HJ :=
  ⟨normalizePlanArg sendStrArg, normalizePlanArg sendBytesArg,
   normalizePlanArg sendJsonArg, normalizePlanArg hdlrStrArg,
   normalizePlanArg hdlrBytesArg, normalizePlanArg hdlrJsonArg⟩

/-! ## Message dispatcher (WebSocketApp._ws_receive and _onmessage,
ws.py lines 193-228)

_ws_receive consumes inbound frames in arrival order and schedules, for each
frame, one _onmessage dispatch (loop.call_soon) without waiting on handlers.
_onmessage fans a TEXT frame out to the str handlers, a BINARY frame to the
bytes handlers, and, when any JSON handler is registered, decodes the frame
(msg.json()) and fans the decoded value out to the JSON handlers; a decode
failure is logged as a warning and nothing is scheduled for the JSON
handlers.  The handler types and the decoded-JSON type are opaque
parameters; msg.json()'s outcome is carried on the frame as an Except, the
error side holding the logged decode-error text. -/

/-- Frame kinds the dispatcher distinguishes (aiohttp.WSMsgType). -/
inductive WSKind where
  | text
  | binary
  | errorKind
  | other
deriving DecidableEq, Repr

/-- One inbound frame: its kind, its raw payload, and what msg.json() would
return for it (ok value, or error with the logged decode-error text). -/
structure WSMessage (J : Type u) where
  kind : WSKind
  dataStr : String
  jsonData : Except String J

/-- One handler invocation scheduled by _onmessage via loop.call_soon. -/
inductive Dispatch (HS HB HJ J : Type) where
  | callStr (h : HS) (data : String)
  | callBytes (h : HB) (data : String)
  | callJson (h : HJ) (data : J)
deriving DecidableEq

/-- Whether a scheduled invocation is a JSON-handler invocation. -/
def Dispatch.isCallJson {HS HB HJ J : Type} : Dispatch HS HB HJ J → Bool
  | .callJson _ _ => true
  | _ => false

/-- Whether a scheduled invocation is a str-handler invocation. -/
def Dispatch.isCallStr {HS HB HJ J : Type} : Dispatch HS HB HJ J → Bool
  | .callStr _ _ => true
  | _ => false

/-- WebSocketApp._onmessage (ws.py lines 205-228): the handler invocations it
schedules, in order, and the decode warnings it logs. -/
def WebSocketApp.onmessage {HS HB HJ J : Type} (msg : WSMessage J)
    (hdlrStrL : List HS) (hdlrBytesL : List HB) (hdlrJsonL : List HJ) :
    List (Dispatch HS HB HJ J) × List String :=
  let strPart :=
    if msg.kind = .text then hdlrStrL.map (fun h => Dispatch.callStr h msg.dataStr)
    else []
  let bytesPart :=
    if msg.kind = .binary then hdlrBytesL.map (fun h => Dispatch.callBytes h msg.dataStr)
    else []
  let jsonPart :=
    if hdlrJsonL.isEmpty then ([], [])
    else
      match msg.jsonData with
      | .error e => (([] : List (Dispatch HS HB HJ J)), [e])
      | .ok d => (hdlrJsonL.map (fun h => Dispatch.callJson h d), ([] : List String))
  (strPart ++ bytesPart ++ jsonPart.1, jsonPart.2)

/-- WebSocketApp._ws_receive (ws.py lines 193-203): for each inbound frame,
in arrival order, schedule its _onmessage dispatch; the read loop itself
never runs a handler. -/
def WebSocketApp.wsReceiveSchedule {HS HB HJ J : Type} (msgs : List (WSMessage J))
    (hdlrStrL : List HS) (hdlrBytesL : List HB) (hdlrJsonL : List HJ) :
    List (List (Dispatch HS HB HJ J) × List String) :=
  msgs.map (fun m => WebSocketApp.onmessage m hdlrStrL hdlrBytesL hdlrJsonL)

/-! ## Auth gate for JSON sends (ClientWebSocketResponse.send_json and
_wait_authtask, ws.py lines 603-631)

send_json pops the _itself marker (default False); a send not marked _itself
first awaits the _authtask (when one exists) before transmitting.  The
concurrent discipline is modelled as a labelled transition system over the
states of any number of concurrent send_json callers plus the auth task:
each caller steps through send_json's suspension points, and the gate
transition for a non-_itself caller is enabled only once the auth task is
done.  A transmission is flagged when it happens while the auth task is
still incomplete. -/

/-- State of the auth-gating system: whether the _authtask has completed,
each caller's position inside send_json (0 = entered, 1 = past the gate,
2 = transmitted), and whether the caller's payload went out on the wire
while the auth task was still incomplete. -/
structure AuthGateState where
  authDone : Bool
  pc : ℕ → ℕ
  sentBeforeAuth : ℕ → Bool

/-- Initial state: auth not completed, every caller at send_json entry,
nothing transmitted. -/
def authGateInit : AuthGateState :=
  ⟨false, fun _ => 0, fun _ => false⟩

/-- One scheduler step of the gated system.  `authExists` says whether an
_authtask was started for this connection; `itself i` is caller i's _itself
marker.  passGate is send_json's `await self._wait_authtask()`: for a
non-_itself caller it completes only when the auth task has (authExists →
authDone); an _itself caller skips the gate (skipGate).  transmit is the
physical send, recording whether auth was still incomplete. -/
inductive AuthGateStep (authExists : Bool) (itself : ℕ → Bool) :
    AuthGateState → AuthGateState → Prop
  | authFinish (s : AuthGateState) :
      authExists = true →
      AuthGateStep authExists itself s { s with authDone := true }
  | passGate (s : AuthGateState) (i : ℕ) :
      itself i = false → s.pc i = 0 → (authExists = true → s.authDone = true) →
      AuthGateStep authExists itself s { s with pc := Function.update s.pc i 1 }
  | skipGate (s : AuthGateState) (i : ℕ) :
      itself i = true → s.pc i = 0 →
      AuthGateStep authExists itself s { s with pc := Function.update s.pc i 1 }
  | transmit (s : AuthGateState) (i : ℕ) :
      s.pc i = 1 →
      AuthGateStep authExists itself s
        { s with pc := Function.update s.pc i 2,
                 sentBeforeAuth := Function.update s.sentBeforeAuth i (!s.authDone) }

/-- Reachability from the initial state under the gate's transitions. -/
def AuthGateReachable (authExists : Bool) (itself : ℕ → Bool)
    (s : AuthGateState) : Prop :=
  Relation.ReflTransGen (AuthGateStep authExists itself) authGateInit s

/-! ## RateLimit hook wrapping of physical sends (ClientWebSocketResponse
.send_str, ws.py lines 607-612, and RequestLimit, lines 634-673)

send_str is overridden: on a host registered in RequestLimitHosts the
physical send runs inside the hook, which acquires the per-connection lock,
performs the send, then polls the exchange's status/time endpoint (sleep
then GET, repeatedly) until the observed server time has advanced past the
threshold, and releases the lock.  send_bytes is NOT overridden in ws.py:
aiohttp's raw send_bytes runs, transmitting immediately with no lock.  The
number of poll iterations depends on the external server clock and is a
parameter; the loop body (sleep; GET; check) always runs at least once. -/

/-- Observable actions of a send on the managed connection. -/
inductive SendAction where
  | acquireLock
  | transmitText (s : String)
  | transmitBytes (b : String)
  | statusGet
  | sleepPoll
  | releaseLock
deriving DecidableEq, Repr

/-- The hosts registered in RequestLimitHosts.items (ws.py lines 676-680). -/
def requestLimitHostItems : List String :=
  ["api.coin.z.com", "stream.binance.com"]

/-- A RequestLimit hook run (RequestLimit.gmocoin / RequestLimit.binance,
ws.py lines 636-673): under the lock, perform the pending send, read the
server time, then sleep-and-poll until the threshold has passed; `polls`
extra loop iterations beyond the mandatory first one, as dictated by the
external server clock. -/
def requestLimitRun (inner : List SendAction) (polls : ℕ) : List SendAction :=
  [SendAction.acquireLock] ++ inner ++ [SendAction.statusGet] ++
    (List.replicate (polls + 1) [SendAction.sleepPoll, SendAction.statusGet]).flatten ++
    [SendAction.releaseLock]

/-- ClientWebSocketResponse.send_str (ws.py lines 607-612): pass straight
through unless the host has a RequestLimit hook, in which case the physical
send is wrapped by the hook. -/
def ClientWebSocketResponse.sendStrActions (host : String) (s : String)
    (polls : ℕ) : List SendAction :=
  if host ∈ requestLimitHostItems then
    requestLimitRun [SendAction.transmitText s] polls
  else
    [SendAction.transmitText s]

/-- send_bytes on the managed connection: ws.py does not override it, so
aiohttp's raw send_bytes transmits immediately on every host. -/
def ClientWebSocketResponse.sendBytesActions (host : String) (b : String) :
    List SendAction :=
  [SendAction.transmitBytes b]

/-! ## Heartbeat hook (Heartbeat.okx, ws.py lines 275-279, started by
ClientWebSocketResponse.__init__, lines 586-601)

Heartbeat.okx: while the socket is open, send the text frame "ping", then
sleep 15 seconds.  Modelled on an ideal clock: the socket closes at
`closeTime`, each sleep takes exactly its duration and sends are
instantaneous; the function returns the times at which pings go out.  The
fuel argument only bounds the number of loop iterations the model unfolds;
any fuel with fuel * 15 ≥ closeTime gives the full behavior. -/

/-- The send times of Heartbeat.okx's loop, started at time t on a socket
that closes at closeTime. -/
def heartbeatOkxPings (closeTime : ℚ) : ℕ → ℚ → List ℚ
  | 0, _ => []
  | fuel + 1, t =>
    if t < closeTime then t :: heartbeatOkxPings closeTime fuel (t + 15)
    else []

/-! ## Connection target url (WebSocketApp url property, ws.py lines
105-115, and the supervisor loop's state effects, lines 156-178)

WebSocketApp stores the constructed url in _url; the public `url` property
has a setter that reassigns _url.  _ws_connect always dials self._url, i.e.
the current value at attempt time.  The supervisor loop itself only touches
_current_ws and _event at cycle boundaries, never _url. -/

/-- The WebSocketApp attributes touched by the url property and the
supervisor loop: _url, _current_ws (the socket handle, opaque) and _event. -/
structure WebSocketAppState where
  url : String
  currentWs : Option Unit
  eventSet : Bool
deriving DecidableEq

/-- __init__'s attribute setup: _url := url, no current socket, event unset
(ws.py lines 55-60). -/
def WebSocketApp.mkState (url : String) : WebSocketAppState :=
  ⟨url, none, false⟩

/-- The url property setter (ws.py lines 109-111). -/
def WebSocketApp.setUrl (s : WebSocketAppState) (u : String) : WebSocketAppState :=
  { s with url := u }

/-- The url a reconnect attempt dials: _ws_connect calls
session.ws_connect(self._url) (ws.py line 172). -/
def WebSocketApp.connectUrl (s : WebSocketAppState) : String :=
  s.url

/-- _ws_connect's state effects on success: record the live socket and set
the handshake event (ws.py lines 173-174). -/
def WebSocketApp.cycleConnect (s : WebSocketAppState) : WebSocketAppState :=
  { s with currentWs := some (), eventSet := true }

/-- _run_forever's finally block at every cycle boundary: clear the socket
reference and the handshake event (ws.py lines 157-159). -/
def WebSocketApp.cycleFinally (s : WebSocketAppState) : WebSocketAppState :=
  { s with currentWs := none, eventSet := false }

/-- The operations that touch WebSocketApp's mutable attributes over a
supervisor's lifetime: the public url setter, and the supervisor's own
cycle-boundary effects. -/
inductive AppOp where
  | setUrlOp (u : String)
  | cycleConnectOp
  | cycleFinallyOp

/-- Apply one operation to the attribute state. -/
def applyAppOp (s : WebSocketAppState) : AppOp → WebSocketAppState
  | .setUrlOp u => WebSocketApp.setUrl s u
  | .cycleConnectOp => WebSocketApp.cycleConnect s
  | .cycleFinallyOp => WebSocketApp.cycleFinally s

/-- Apply a sequence of operations. -/
def applyAppOps (s : WebSocketAppState) (ops : List AppOp) : WebSocketAppState :=
  ops.foldl applyAppOp s

/-- The url the caller last assigned through the setter, or the constructed
url if the setter was never used (the claim-side description of where
connect's url comes from). -/
def lastAssignedUrl (u0 : String) (ops : List AppOp) : String :=
  ops.foldl (fun acc op => match op with | .setUrlOp v => v | _ => acc) u0

/-! ## MessageSign hook (MessageSign.binance, ws.py lines 683-711, gated by
ClientWebSocketResponse.send_json, lines 614-631)

send_json applies the host's sign hook only when its auth keyword is the
default, the host is registered in MessageSignHosts, the host's account name
has credentials in the session, and the payload is truthy (a non-empty
dict).  MessageSign.binance itself returns without mutating unless the URL
path starts with "/ws-api" and the payload's "params" field is a dict; when
it applies, it sets params["apiKey"], params["timestamp"], and
params["signature"], the signature being the hex HMAC-SHA256 (keyed by the
secret) of the "&"-joined "param=value" rendering of the params entries in
sorted key order.  HMAC-SHA256 itself is library code outside ws.py and is
an opaque parameter `hmacHex`. -/

/-- Generic association-list lookup (first binding wins), for the static
host registries and the session's credential store. -/
def assocLookup {α : Type u} : List (String × α) → String → Option α
  | [], _ => none
  | (k0, v0) :: rest, k => if k0 = k then some v0 else assocLookup rest k

/-- Python repr() of a decoded JSON value, as nested containers render
inside str() of a container.  Dict braces and quotes appear escaped. -/
def pyRepr : JVal → String
  | .jstr s => "\x27" ++ s ++ "\x27"
  | .jint n => toString n
  | .jbool b => if b then "True" else "False"
  | .jnull => "None"
  | .jobj fields =>
    "\x7b" ++ String.intercalate ", "
      (fields.attach.map
        (fun kv => "\x27" ++ kv.1.1 ++ "\x27: " ++ pyRepr kv.1.2)) ++ "\x7d"
  | .jarr elems =>
    "[" ++ String.intercalate ", " (elems.attach.map (fun v => pyRepr v.1)) ++ "]"
decreasing_by
  · have hm := kv.2
    have h1 : sizeOf kv.1 < 1 + sizeOf fields :=
      Nat.lt_of_lt_of_le (List.sizeOf_lt_of_mem hm) (Nat.le_add_left _ _)
    have h2 : sizeOf kv.1.2 < sizeOf kv.1 := by
      obtain ⟨a, b⟩ := kv.1
      simp only [Prod.mk.sizeOf_spec]
      omega
    simp only [JVal.jobj.sizeOf_spec]
    omega
  · have hm := v.2
    have h1 : sizeOf v.1 < 1 + sizeOf elems :=
      Nat.lt_of_lt_of_le (List.sizeOf_lt_of_mem hm) (Nat.le_add_left _ _)
    simp only [JVal.jarr.sizeOf_spec]
    omega

/-- Python str() of a value, as the f-string f"\x7bparam\x7d=\x7bvalue\x7d"
renders it: strings raw, True/False/None in Python spelling, containers via
repr(). -/
def pyStr : JVal → String
  | .jstr s => s
  | .jint n => toString n
  | .jbool b => if b then "True" else "False"
  | .jnull => "None"
  | .jobj fields => pyRepr (.jobj fields)
  | .jarr elems => pyRepr (.jarr elems)

/-- Insert one binding into a key-sorted list, keeping ascending key order
(ties keep the inserted element first, matching Python's stable sort on
unique-key dict items). -/
def insertByKey (p : String × JVal) : List (String × JVal) → List (String × JVal)
  | [] => [p]
  | q :: rest => if p.1 ≤ q.1 then p :: q :: rest else q :: insertByKey p rest

/-- Python sorted(params.items()): the dict's bindings in ascending key
order. -/
def sortByKey : List (String × JVal) → List (String × JVal)
  | [] => []
  | p :: rest => insertByKey p (sortByKey rest)

/-- The "&"-joined "param=value" canonical encoding MessageSign.binance
signs (ws.py lines 706-708). -/
def signPayload (params : List (String × JVal)) : String :=
  String.intercalate "&" ((sortByKey params).map (fun kv => kv.1 ++ "=" ++ pyStr kv.2))

/-- MessageSign.binance (ws.py lines 684-711): no-op unless the URL path
starts with "/ws-api" and the payload has a dict-valued "params" field;
otherwise injects apiKey and timestamp into params and sets
params["signature"] to hmacHex(secret, signPayload(params)).  The in-place
dict mutation becomes the returned updated payload. -/
def MessageSign.binance (hmacHex : String → String → String) (key secret : String)
    (path : String) (tsMillis : ℤ) (data : List (String × JVal)) :
    List (String × JVal) :=
  if ¬ strStartsWith path "/ws-api" then data
  else
    match jLookup data "params" with
    | some (.jobj params) =>
      let params2 := dictSet (dictSet params "apiKey" (.jstr key)) "timestamp" (.jint tsMillis)
      let signature := hmacHex secret (signPayload params2)
      dictSet data "params" (.jobj (dictSet params2 "signature" (.jstr signature)))
    | _ => data

/-- The hosts registered in MessageSignHosts.items with their account names
(ws.py lines 714-718). -/
def messageSignHostItems : List (String × String) :=
  [("ws-api.binance.com", "binance"), ("testnet.binance.vision", "binance_testnet")]

/-- ClientWebSocketResponse.send_json's signing gate (ws.py lines 619-631):
the hook runs only when the auth keyword is left at its default, the host is
registered, the account has credentials, and the payload is truthy
(non-empty).  `apis` is the session's credential store, account name to
(key, secret). -/
def sendJsonApplySign (hmacHex : String → String → String) (host path : String)
    (apis : List (String × (String × String))) (authDefault : Bool)
    (tsMillis : ℤ) (data : List (String × JVal)) : List (String × JVal) :=
  if authDefault then
    match assocLookup messageSignHostItems host with
    | some name =>
      match assocLookup apis name with
      | some creds =>
        if data.isEmpty then data
        else MessageSign.binance hmacHex creds.1 creds.2 path tsMillis data
      | none => data
    | none => data
  else data

/-! ## Auth hooks (class Auth, ws.py lines 302-529, registered in
AuthHosts.items, lines 566-582)

Each registered hook builds one handshake payload from the credentials
resolved for the host's account name and sends it with _itself=True, then
(except Auth.mexc, which returns right after sending) iterates over inbound
frames until its success predicate breaks the loop, a socket-error frame
breaks the loop, or the frames end; failure-shaped frames are logged as
warnings.  Auth.bybit returns without sending on public or /spot/quote
paths, Auth.okx on paths ending in "public".  Credentials, the current
time, the generated nonce and the HMAC primitives are bundled in an
environment; a hook run is a function of that environment, the URL path and
the inbound frame sequence. -/

/-- The credentials and collaborator primitives an Auth hook draws on:
(key, secret, passphrase) from the session's credential store, time.time(),
secrets.token_hex(16), and HMAC-SHA256 in hex and base64 form. -/
structure AuthEnv where
  key : String
  secret : String
  passphrase : String
  nowSec : ℚ
  nonce : String
  hmacHex : String → String → String
  hmacB64 : String → String → String

/-- Python round() on a float modelled on rationals: round half to even
(used by Auth.bitget's int(round(time.time()))). -/
def pyRound (q : ℚ) : ℤ :=
  if q - ⌊q⌋ < 1 / 2 then ⌊q⌋
  else if 1 / 2 < q - ⌊q⌋ then ⌊q⌋ + 1
  else if ⌊q⌋ % 2 = 0 then ⌊q⌋ else ⌊q⌋ + 1

/-- Python `k in data` on a decoded JSON value: key membership for dicts,
element equality for lists, substring containment for strings; none models
the TypeError Python raises on a number, boolean or None receiver, which
escapes the hook and ends the auth task. -/
def jContains (v : JVal) (k : String) : Option Bool :=
  match v with
  | .jobj fields => some (jLookup fields k).isSome
  | .jarr elems =>
    some (elems.any (fun e => match e with | .jstr s => s == k | _ => false))
  | .jstr s => some (strContains s k)
  | _ => none

/-- Python truthiness of a decoded JSON value. -/
def jTruthy : JVal → Bool
  | .jstr s => !s.isEmpty
  | .jint n => n != 0
  | .jbool b => b
  | .jnull => false
  | .jobj fields => !fields.isEmpty
  | .jarr elems => !elems.isEmpty

/-- Python data[k] on a decoded JSON value: a dict lookup; none models the
exception Python raises (KeyError on a missing key, TypeError on a
non-dict). -/
def jIndex (v : JVal) (k : String) : Option JVal :=
  match v with
  | .jobj fields => jLookup fields k
  | _ => none

/-- Whether a decoded JSON value equals the Python string literal s. -/
def jIsStr (v : JVal) (s : String) : Bool :=
  match v with
  | .jstr t => t == s
  | _ => false

/-- How an Auth hook's read loop ended: its success predicate broke the
loop; a socket-error frame broke it; Auth.bitget's error event warned and
broke it; the frames ran out (socket closed); an uncaught exception left the
hook (raisedEnd); or the hook never entered a read loop (noLoopEnd:
Auth.mexc after its send, and the skipped public-path runs). -/
inductive LoopEnd where
  | successEnd
  | errorEnd
  | warnBreakEnd
  | exhaustedEnd
  | raisedEnd
  | noLoopEnd
deriving DecidableEq, Repr

/-- Outcome of an Auth hook's read loop: frames consumed, warnings logged,
and how it ended. -/
structure LoopOut where
  consumed : ℕ
  warnings : ℕ
  ending : LoopEnd
deriving DecidableEq, Repr

/-- Account the current frame (and w warnings logged on it) and continue
with the rest of the loop's outcome. -/
def LoopOut.afterOne (o : LoopOut) (w : ℕ) : LoopOut :=
  ⟨o.consumed + 1, o.warnings + w, o.ending⟩

/-- Auth.bybit's read loop (ws.py lines 327-341): break when a TEXT frame
has a truthy "success" (or, for spot v1, an "auth" key); warn and continue
on a falsy "success" or a "code" key; break on a socket-error frame.  The
msg.json() call is not guarded, so a decode failure raises, as do the
TypeError of `"success" in data` on a non-container payload and the
TypeError of data["success"] on a non-dict container. -/
def bybitAuthLoop : List (WSMessage JVal) → LoopOut
  | [] => ⟨0, 0, .exhaustedEnd⟩
  | m :: rest =>
    match m.kind with
    | .text =>
      match m.jsonData with
      | .error _ => ⟨1, 0, .raisedEnd⟩
      | .ok d =>
        match jContains d "success" with
        | none => ⟨1, 0, .raisedEnd⟩
        | some true =>
          match jIndex d "success" with
          | none => ⟨1, 0, .raisedEnd⟩
          | some v =>
            if jTruthy v then ⟨1, 0, .successEnd⟩
            else (bybitAuthLoop rest).afterOne 1
        | some false =>
          match jContains d "auth" with
          | none => ⟨1, 0, .raisedEnd⟩
          | some true => ⟨1, 0, .successEnd⟩
          | some false =>
            match jContains d "code" with
            | none => ⟨1, 0, .raisedEnd⟩
            | some true => (bybitAuthLoop rest).afterOne 1
            | some false => (bybitAuthLoop rest).afterOne 0
    | .errorKind => ⟨1, 0, .errorEnd⟩
    | _ => (bybitAuthLoop rest).afterOne 0

/-- Auth.bitflyer's read loop (ws.py lines 370-379): warn on an "error"
key; break when data["id"] equals "auth"; break on a socket-error frame.
msg.json() is not guarded, and `"error" in data` / data["id"] raise on
non-container / non-dict payloads (after any warning already logged). -/
def bitflyerAuthLoop : List (WSMessage JVal) → LoopOut
  | [] => ⟨0, 0, .exhaustedEnd⟩
  | m :: rest =>
    match m.kind with
    | .text =>
      match m.jsonData with
      | .error _ => ⟨1, 0, .raisedEnd⟩
      | .ok d =>
        match jContains d "error" with
        | none => ⟨1, 0, .raisedEnd⟩
        | some he =>
          match jContains d "id" with
          | none => ⟨1, if he then 1 else 0, .raisedEnd⟩
          | some true =>
            match jIndex d "id" with
            | none => ⟨1, if he then 1 else 0, .raisedEnd⟩
            | some v =>
              if jIsStr v "auth" then ⟨1, if he then 1 else 0, .successEnd⟩
              else (bitflyerAuthLoop rest).afterOne (if he then 1 else 0)
          | some false => (bitflyerAuthLoop rest).afterOne (if he then 1 else 0)
    | .errorKind => ⟨1, 0, .errorEnd⟩
    | _ => (bitflyerAuthLoop rest).afterOne 0

/-- Auth.phemex's read loop (ws.py lines 400-409): warn when "error" is
present and not None; break when data["result"] equals the dict
(status: success).  The unguarded msg.json() raises on a decode failure,
`"error" in data` raises on a non-container payload, and data["error"] /
data["result"] raise on a non-dict container or a missing "result" key. -/
def phemexAuthLoop : List (WSMessage JVal) → LoopOut
  | [] => ⟨0, 0, .exhaustedEnd⟩
  | m :: rest =>
    match m.kind with
    | .text =>
      match m.jsonData with
      | .error _ => ⟨1, 0, .raisedEnd⟩
      | .ok d =>
        match jContains d "error" with
        | none => ⟨1, 0, .raisedEnd⟩
        | some true =>
          match jIndex d "error" with
          | none => ⟨1, 0, .raisedEnd⟩
          | some .jnull =>
            match jIndex d "result" with
            | none => ⟨1, 0, .raisedEnd⟩
            | some (.jobj [(k, v)]) =>
              if k = "status" && jIsStr v "success" then ⟨1, 0, .successEnd⟩
              else (phemexAuthLoop rest).afterOne 0
            | some _ => (phemexAuthLoop rest).afterOne 0
          | some _ =>
            match jIndex d "result" with
            | none => ⟨1, 1, .raisedEnd⟩
            | some (.jobj [(k, v)]) =>
              if k = "status" && jIsStr v "success" then ⟨1, 1, .successEnd⟩
              else (phemexAuthLoop rest).afterOne 1
            | some _ => (phemexAuthLoop rest).afterOne 1
        | some false =>
          match jIndex d "result" with
          | none => ⟨1, 0, .raisedEnd⟩
          | some (.jobj [(k, v)]) =>
            if k = "status" && jIsStr v "success" then ⟨1, 0, .successEnd⟩
            else (phemexAuthLoop rest).afterOne 0
          | some _ => (phemexAuthLoop rest).afterOne 0
    | .errorKind => ⟨1, 0, .errorEnd⟩
    | _ => (phemexAuthLoop rest).afterOne 0

/-- Auth.okx's read loop (ws.py lines 443-454): decode failures are caught
and skipped; warn when data["event"] is "error"; break when it is "login";
the KeyError of a frame without "event" is not caught and raises; break on
a socket-error frame. -/
def okxAuthLoop : List (WSMessage JVal) → LoopOut
  | [] => ⟨0, 0, .exhaustedEnd⟩
  | m :: rest =>
    match m.kind with
    | .text =>
      match m.jsonData with
      | .error _ => (okxAuthLoop rest).afterOne 0
      | .ok d =>
        match jIndex d "event" with
        | none => ⟨1, 0, .raisedEnd⟩
        | some ev =>
          let w := if jIsStr ev "error" then 1 else 0
          if jIsStr ev "login" then ⟨1, w, .successEnd⟩
          else (okxAuthLoop rest).afterOne w
    | .errorKind => ⟨1, 0, .errorEnd⟩
    | _ => (okxAuthLoop rest).afterOne 0

/-- Auth.bitget's read loop (ws.py lines 486-500): decode failures are
caught and skipped; when an "event" key is present, "login" breaks with
success and "error" warns and breaks; break on a socket-error frame.  The
TypeError of `"event" in data` on a non-container payload (and of
data["event"] on a non-dict container) is not caught and raises. -/
def bitgetAuthLoop : List (WSMessage JVal) → LoopOut
  | [] => ⟨0, 0, .exhaustedEnd⟩
  | m :: rest =>
    match m.kind with
    | .text =>
      match m.jsonData with
      | .error _ => (bitgetAuthLoop rest).afterOne 0
      | .ok d =>
        match jContains d "event" with
        | none => ⟨1, 0, .raisedEnd⟩
        | some true =>
          match jIndex d "event" with
          | none => ⟨1, 0, .raisedEnd⟩
          | some ev =>
            if jIsStr ev "login" then ⟨1, 0, .successEnd⟩
            else if jIsStr ev "error" then ⟨1, 1, .warnBreakEnd⟩
            else (bitgetAuthLoop rest).afterOne 0
        | some false => (bitgetAuthLoop rest).afterOne 0
    | .errorKind => ⟨1, 0, .errorEnd⟩
    | _ => (bitgetAuthLoop rest).afterOne 0

/-- Auth.bybit's handshake payload (ws.py lines 317-326). -/
def bybitAuthPayload (env : AuthEnv) : JVal :=
  let expires : ℤ := pyInt ((env.nowSec + 5) * 1000)
  let signature := env.hmacHex env.secret ("GET/realtime" ++ toString expires)
  .jobj [("op", .jstr "auth"),
         ("args", .jarr [.jstr env.key, .jint expires, .jstr signature])]

/-- Auth.bitflyer's handshake payload (ws.py lines 352-369). -/
def bitflyerAuthPayload (env : AuthEnv) : JVal :=
  let timestamp : ℤ := pyInt (env.nowSec * 1000)
  let sign := env.hmacHex env.secret (toString timestamp ++ env.nonce)
  .jobj [("method", .jstr "auth"),
         ("params", .jobj [("api_key", .jstr env.key), ("timestamp", .jint timestamp),
                           ("nonce", .jstr env.nonce), ("signature", .jstr sign)]),
         ("id", .jstr "auth")]

/-- Auth.phemex's handshake payload (ws.py lines 390-399). -/
def phemexAuthPayload (env : AuthEnv) : JVal :=
  let expiry : ℤ := pyInt (env.nowSec + 60)
  let signature := env.hmacHex env.secret (env.key ++ toString expiry)
  .jobj [("method", .jstr "user.auth"),
         ("params", .jarr [.jstr "API", .jstr env.key, .jstr signature, .jint expiry]),
         ("id", .jint 123)]

/-- Auth.okx's handshake payload (ws.py lines 426-442). -/
def okxAuthPayload (env : AuthEnv) : JVal :=
  let timestamp := toString (pyInt env.nowSec)
  let sign := env.hmacB64 env.secret (timestamp ++ "GET/users/self/verify")
  .jobj [("op", .jstr "login"),
         ("args", .jarr [.jobj [("apiKey", .jstr env.key),
                                ("passphrase", .jstr env.passphrase),
                                ("timestamp", .jstr timestamp),
                                ("sign", .jstr sign)]])]

/-- Auth.bitget's handshake payload (ws.py lines 468-484). -/
def bitgetAuthPayload (env : AuthEnv) : JVal :=
  let timestamp : ℤ := pyRound env.nowSec
  let sign := env.hmacB64 env.secret (toString timestamp ++ "GET/user/verify")
  .jobj [("op", .jstr "login"),
         ("args", .jarr [.jobj [("api_key", .jstr env.key),
                                ("passphrase", .jstr env.passphrase),
                                ("timestamp", .jstr (toString timestamp)),
                                ("sign", .jstr sign)]])]

/-- Auth.mexc's handshake payload (ws.py lines 511-523). -/
def mexcAuthPayload (env : AuthEnv) : JVal :=
  let timestamp := toString (pyInt env.nowSec)
  let sign := env.hmacHex env.secret (env.key ++ timestamp)
  .jobj [("method", .jstr "login"),
         ("param", .jobj [("apiKey", .jstr env.key), ("reqTime", .jstr timestamp),
                          ("signature", .jstr sign)])]

/-- The six hook implementations registered in AuthHosts.items.  (Auth.kucoin
exists in ws.py but is registered in no AuthHosts entry.) -/
inductive AuthName where
  | bybit
  | bitflyer
  | phemex
  | okx
  | bitget
  | mexc
deriving DecidableEq, Repr

/-- The observable outcome of one Auth hook run: the payloads it sent, each
with the _itself flag it passed to send_json, and its read loop's outcome. -/
structure AuthRun where
  sent : List (JVal × Bool)
  loopOut : LoopOut

/-- One Auth hook run (class Auth, ws.py lines 302-524): Auth.bybit skips
public and /spot/quote paths, Auth.okx skips paths ending in "public";
otherwise the hook sends its handshake payload with _itself=True and, except
for Auth.mexc (which returns immediately after sending, ws.py lines
502-524), runs its read loop over the inbound frames. -/
def runAuthHook (n : AuthName) (env : AuthEnv) (path : String)
    (frames : List (WSMessage JVal)) : AuthRun :=
  match n with
  | .bybit =>
    if strContains path "public" || strStartsWith path "/spot/quote" then
      ⟨[], ⟨0, 0, .noLoopEnd⟩⟩
    else ⟨[(bybitAuthPayload env, true)], bybitAuthLoop frames⟩
  | .bitflyer => ⟨[(bitflyerAuthPayload env, true)], bitflyerAuthLoop frames⟩
  | .phemex => ⟨[(phemexAuthPayload env, true)], phemexAuthLoop frames⟩
  | .okx =>
    if strEndsWith path "public" then ⟨[], ⟨0, 0, .noLoopEnd⟩⟩
    else ⟨[(okxAuthPayload env, true)], okxAuthLoop frames⟩
  | .bitget => ⟨[(bitgetAuthPayload env, true)], bitgetAuthLoop frames⟩
  | .mexc => ⟨[(mexcAuthPayload env, true)], ⟨0, 0, .noLoopEnd⟩⟩

/-- AuthHosts.items (ws.py lines 566-582): host, account name, hook. -/
def authHostItems : List (String × String × AuthName) :=
  [("stream.bybit.com", "bybit", .bybit),
   ("stream.bytick.com", "bybit", .bybit),
   ("stream-testnet.bybit.com", "bybit_testnet", .bybit),
   ("ws.lightstream.bitflyer.com", "bitflyer", .bitflyer),
   ("phemex.com", "phemex", .phemex),
   ("api.phemex.com", "phemex", .phemex),
   ("vapi.phemex.com", "phemex", .phemex),
   ("testnet.phemex.com", "phemex_testnet", .phemex),
   ("testnet-api.phemex.com", "phemex_testnet", .phemex),
   ("ws.okx.com", "okx", .okx),
   ("wsaws.okx.com", "okx", .okx),
   ("wspap.okx.com", "okx_demo", .okx),
   ("ws.bitget.com", "bitget", .bitget),
   ("contract.mexc.com", "mexc", .mexc)]

/-- Claim-side description of the paths a hook skips without sending:
Auth.bybit skips paths containing "public" or starting with "/spot/quote",
Auth.okx skips paths ending in "public". -/
def authSkipsPath : AuthName → String → Bool
  | .bybit, p => strContains p "public" || strStartsWith p "/spot/quote"
  | .okx, p => strEndsWith p "public"
  | _, _ => false

/-- Claim-side description of each looping hook's success frame: a TEXT
frame whose decoded JSON satisfies the hook's success predicate.  (mexc has
no read loop; its entry is unused.) -/
def authSuccessFrame : AuthName → WSMessage JVal
  | .bybit => ⟨.text, "", .ok (.jobj [("success", .jbool true)])⟩
  | .bitflyer => ⟨.text, "", .ok (.jobj [("id", .jstr "auth")])⟩
  | .phemex => ⟨.text, "", .ok (.jobj [("result", .jobj [("status", .jstr "success")])])⟩
  | .okx => ⟨.text, "", .ok (.jobj [("event", .jstr "login")])⟩
  | .bitget => ⟨.text, "", .ok (.jobj [("event", .jstr "login")])⟩
  | .mexc => ⟨.other, "", .ok .jnull⟩

/-- Claim-side description of a failure-shaped frame for each hook: a TEXT
frame the hook warns on.  bybit warns on a falsy "success"; bitflyer on an
"error" key; phemex on a non-null "error" (with "result" present so the
unguarded access does not raise); okx and bitget on an "error" event —
bitget also breaks its loop after that warning.  (mexc has no read loop;
its entry is unused.) -/
def authFailureFrame : AuthName → WSMessage JVal
  | .bybit => ⟨.text, "", .ok (.jobj [("success", .jbool false)])⟩
  | .bitflyer => ⟨.text, "", .ok (.jobj [("error", .jstr "x")])⟩
  | .phemex => ⟨.text, "", .ok (.jobj [("error", .jstr "x"), ("result", .jnull)])⟩
  | .okx => ⟨.text, "", .ok (.jobj [("event", .jstr "error")])⟩
  | .bitget => ⟨.text, "", .ok (.jobj [("event", .jstr "error")])⟩
  | .mexc => ⟨.other, "", .ok .jnull⟩

/-- A TEXT frame whose decoded JSON is a bare number: probing it with
Python's `in` (or indexing it) raises TypeError, ending the auth task. -/
def nonContainerFrame : WSMessage JVal :=
  ⟨.text, "7", .ok (.jint 7)⟩

/-- A socket-error frame (aiohttp.WSMsgType.ERROR). -/
def socketErrorFrame : WSMessage JVal :=
  ⟨.errorKind, "", .error "socket error"⟩

/-- A concrete credential environment for evaluating Auth hook runs on
explicit inputs. -/
def cexAuthEnv : AuthEnv :=
  ⟨"key", "secret", "pass", 1700000000, "nonce", fun _ _ => "hex", fun _ _ => "b64"⟩

/-! ## Theorems -/

theorem delayAfterFailures_closed (cfg : BackoffCfg) (h0 : 0 < cfg.bmin)
    (h1 : cfg.bmin < cfg.bmax) (h2 : 1 < cfg.factor) (k : ℕ) :
    delayAfterFailures cfg k = min (cfg.bmin * cfg.factor ^ k) cfg.bmax := by
  induction k with
  | zero =>
    simp only [delayAfterFailures, pow_zero, mul_one]
    exact (min_eq_left (le_of_lt h1)).symm
  | succ n ih =>
    have hfpos : (0 : ℚ) < cfg.factor := lt_trans one_pos h2
    have hmaxpos : (0 : ℚ) < cfg.bmax := lt_trans h0 h1
    have hppos : (0 : ℚ) < cfg.bmin * cfg.factor ^ n :=
      mul_pos h0 (pow_pos hfpos n)
    simp only [delayAfterFailures, backoffNext, ih]
    rcases le_total (cfg.bmin * cfg.factor ^ n) cfg.bmax with hle | hge
    · rw [min_eq_left hle, pow_succ, ← mul_assoc]
    · rw [min_eq_right hge]
      have h1le : cfg.bmax ≤ cfg.bmax * cfg.factor :=
        le_mul_of_one_le_right (le_of_lt hmaxpos) (le_of_lt h2)
      have h2le : cfg.bmax ≤ cfg.bmin * cfg.factor ^ (n + 1) := by
        calc cfg.bmax ≤ cfg.bmin * cfg.factor ^ n := hge
          _ ≤ cfg.bmin * cfg.factor ^ n * cfg.factor :=
              le_mul_of_one_le_right (le_of_lt hppos) (le_of_lt h2)
          _ = cfg.bmin * cfg.factor ^ (n + 1) := by rw [pow_succ, mul_assoc]
      rw [min_eq_right h1le, min_eq_right h2le]

/-- C10: WebSocketApp.__init__ normalizes each send-plan and handler-plan
argument: a bare value behaves identically to the one-element list holding
it, and None behaves identically to the empty list, independently in each
of the six positions. -/
theorem initPlans_argument_normalization {S B J HS HB HJ : Type}
    (s : S) (b : B) (j : J) (hs : HS) (hb : HB) (hj : HJ)
    (a1 : PlanArg S) (a2 : PlanArg B) (a3 : PlanArg J)
    (a4 : PlanArg HS) (a5 : PlanArg HB) (a6 : PlanArg HJ) :
    (WebSocketApp.initPlans (.single s) a2 a3 a4 a5 a6
        = WebSocketApp.initPlans (.many [s]) a2 a3 a4 a5 a6
      ∧ WebSocketApp.initPlans (PlanArg.absent : PlanArg S) a2 a3 a4 a5 a6
        = WebSocketApp.initPlans (PlanArg.many ([] : List S)) a2 a3 a4 a5 a6)
    ∧ (WebSocketApp.initPlans a1 (.single b) a3 a4 a5 a6
        = WebSocketApp.initPlans a1 (.many [b]) a3 a4 a5 a6
      ∧ WebSocketApp.initPlans a1 (PlanArg.absent : PlanArg B) a3 a4 a5 a6
        = WebSocketApp.initPlans a1 (PlanArg.many ([] : List B)) a3 a4 a5 a6)
    ∧ (WebSocketApp.initPlans a1 a2 (.single j) a4 a5 a6
        = WebSocketApp.initPlans a1 a2 (.many [j]) a4 a5 a6
      ∧ WebSocketApp.initPlans a1 a2 (PlanArg.absent : PlanArg J) a4 a5 a6
        = WebSocketApp.initPlans a1 a2 (PlanArg.many ([] : List J)) a4 a5 a6)
    ∧ (WebSocketApp.initPlans a1 a2 a3 (.single hs) a5 a6
        = WebSocketApp.initPlans a1 a2 a3 (.many [hs]) a5 a6
      ∧ WebSocketApp.initPlans a1 a2 a3 (PlanArg.absent : PlanArg HS) a5 a6
        = WebSocketApp.initPlans a1 a2 a3 (PlanArg.many ([] : List HS)) a5 a6)
    ∧ (WebSocketApp.initPlans a1 a2 a3 a4 (.single hb) a6
        = WebSocketApp.initPlans a1 a2 a3 a4 (.many [hb]) a6
      ∧ WebSocketApp.initPlans a1 a2 a3 a4 (PlanArg.absent : PlanArg HB) a6
        = WebSocketApp.initPlans a1 a2 a3 a4 (PlanArg.many ([] : List HB)) a6)
    ∧ (WebSocketApp.initPlans a1 a2 a3 a4 a5 (.single hj)
        = WebSocketApp.initPlans a1 a2 a3 a4 a5 (.many [hj])
      ∧ WebSocketApp.initPlans a1 a2 a3 a4 a5 (PlanArg.absent : PlanArg HJ)
        = WebSocketApp.initPlans a1 a2 a3 a4 a5 (PlanArg.many ([] : List HJ))) :=
  ⟨⟨rfl, rfl⟩, ⟨rfl, rfl⟩, ⟨rfl, rfl⟩, ⟨rfl, rfl⟩, ⟨rfl, rfl⟩, ⟨rfl, rfl⟩⟩

/-- C2 (amended): for a backoff configuration with 0 < min < max and
factor > 1, the sleep after the first consecutive failure is uniform in
[0, initial); after k > 1 consecutive failures it is the integer part
(Python int truncation) of min(min * factor^(k-1), max) seconds — not that
exact rational value; and a successful cycle resets the delay so the next
failure sleeps the jittered k = 1 way again. -/
theorem run_forever_backoff_schedule (cfg : BackoffCfg) (h0 : 0 < cfg.bmin)
    (h1 : cfg.bmin < cfg.bmax) (h2 : 1 < cfg.factor) (k : ℕ) (hk : 1 ≤ k) :
    sleepAfterFailures cfg k =
      (if k = 1 then SleepSpec.jitter cfg.initial
       else SleepSpec.fixedSleep
         ((pyInt (min (cfg.bmin * cfg.factor ^ (k - 1)) cfg.bmax) : ℤ) : ℚ))
    ∧ (∀ d : ℚ, (runForeverStep cfg d CycleOutcome.success).2 = cfg.bmin)
    ∧ backoffSleep cfg cfg.bmin = SleepSpec.jitter cfg.initial := by
  refine ⟨?_, fun d => rfl, by simp [backoffSleep]⟩
  by_cases hk1 : k = 1
  · subst hk1
    simp [sleepAfterFailures, delayAfterFailures, backoffSleep]
  · have hd : delayAfterFailures cfg (k - 1)
        = min (cfg.bmin * cfg.factor ^ (k - 1)) cfg.bmax :=
      delayAfterFailures_closed cfg h0 h1 h2 (k - 1)
    have hk0 : k - 1 ≠ 0 := by omega
    have hgt : cfg.bmin < cfg.bmin * cfg.factor ^ (k - 1) :=
      lt_mul_of_one_lt_right h0 (one_lt_pow₀ h2 hk0)
    have hne : min (cfg.bmin * cfg.factor ^ (k - 1)) cfg.bmax ≠ cfg.bmin :=
      (lt_min hgt h1).ne'
    simp only [sleepAfterFailures, backoffSleep, hd, if_neg hne, if_neg hk1]

/-- C2 counterexample: with (min, max, factor, initial) = (2, 60, 7/4, 5),
after 2 consecutive failures backoff_delay is 7/2, and the code sleeps
int(7/2) = 3 seconds, not the exact min(min * factor^1, max) = 7/2 seconds
the claim states. -/
theorem run_forever_backoff_counterexample :
    sleepAfterFailures ⟨2, 60, 7/4, 5⟩ 2
        ≠ SleepSpec.fixedSleep (min ((2 : ℚ) * (7/4) ^ (2 - 1)) 60)
    ∧ sleepAfterFailures ⟨2, 60, 7/4, 5⟩ 2 = SleepSpec.fixedSleep 3 := by
  have hdelay : delayAfterFailures ⟨2, 60, 7/4, 5⟩ 1 = 7/2 := by
    norm_num [delayAfterFailures, backoffNext, min_def]
  have hsleep : sleepAfterFailures ⟨2, 60, 7/4, 5⟩ 2 = SleepSpec.fixedSleep 3 := by
    show backoffSleep _ (delayAfterFailures _ 1) = _
    rw [hdelay]
    norm_num [backoffSleep, pyInt]
  refine ⟨?_, hsleep⟩
  rw [hsleep]
  have : min ((2 : ℚ) * (7/4) ^ (2 - 1)) 60 = 7/2 := by norm_num [min_def]
  rw [this]
  intro hcontra
  have := SleepSpec.fixedSleep.inj hcontra
  norm_num at this

/-- Witness for the backoff schedule theorem at the source's default
configuration (1.92, 60, 1.618, 5) and k = 3: the code sleeps
int(1.92 * 1.618^2) = int(5.0264...) = 5 seconds. -/
theorem run_forever_backoff_schedule_witness :
    sleepAfterFailures ⟨48/25, 60, 809/500, 5⟩ 3
        = SleepSpec.fixedSleep
            ((pyInt (min ((48/25 : ℚ) * (809/500 : ℚ) ^ (3 - 1)) 60) : ℤ) : ℚ)
    ∧ backoffSleep ⟨48/25, 60, 809/500, 5⟩ (48/25 : ℚ) = SleepSpec.jitter 5 := by
  have h := run_forever_backoff_schedule ⟨48/25, 60, 809/500, 5⟩
    (by norm_num) (by norm_num) (by norm_num) 3 (by norm_num)
  exact ⟨by simpa using h.1, h.2.2⟩

/-- C7 counterexample: api.coin.z.com is a registered RateLimit host, yet a
binary send there is transmitted immediately, never acquiring the
per-connection lock, because ws.py does not override send_bytes. -/
theorem send_bytes_rate_limit_counterexample :
    "api.coin.z.com" ∈ requestLimitHostItems
    ∧ ClientWebSocketResponse.sendBytesActions "api.coin.z.com" "b"
        = [SendAction.transmitBytes "b"]
    ∧ SendAction.acquireLock ∉ ClientWebSocketResponse.sendBytesActions "api.coin.z.com" "b" := by
  refine ⟨by simp [requestLimitHostItems], rfl, by simp [ClientWebSocketResponse.sendBytesActions]⟩

/-- C7 (amended): on a RateLimit host a text send runs under the
per-connection lock, wrapped by the hook's send-then-poll pacing; on other
hosts text sends are transmitted immediately; binary sends are transmitted
immediately without the lock on every host, because send_bytes is not
overridden. -/
theorem send_str_bytes_rate_limit (host s b : String) (polls : ℕ)
    (hin : host ∈ requestLimitHostItems) :
    ClientWebSocketResponse.sendStrActions host s polls
        = [SendAction.acquireLock] ++ [SendAction.transmitText s]
          ++ [SendAction.statusGet]
          ++ (List.replicate (polls + 1) [SendAction.sleepPoll, SendAction.statusGet]).flatten
          ++ [SendAction.releaseLock]
    ∧ (ClientWebSocketResponse.sendStrActions host s polls).head? = some SendAction.acquireLock
    ∧ SendAction.sleepPoll ∈ ClientWebSocketResponse.sendStrActions host s polls
    ∧ (∀ host2 : String, host2 ∉ requestLimitHostItems →
        ClientWebSocketResponse.sendStrActions host2 s polls = [SendAction.transmitText s])
    ∧ (∀ host3 : String, ClientWebSocketResponse.sendBytesActions host3 b
        = [SendAction.transmitBytes b]
      ∧ SendAction.acquireLock ∉ ClientWebSocketResponse.sendBytesActions host3 b) := by
  refine ⟨?_, ?_, ?_, ?_, ?_⟩
  · simp [ClientWebSocketResponse.sendStrActions, hin, requestLimitRun]
  · simp [ClientWebSocketResponse.sendStrActions, hin, requestLimitRun]
  · simp [ClientWebSocketResponse.sendStrActions, hin, requestLimitRun, List.mem_append,
      List.mem_flatten]
  · intro host2 h2
    simp [ClientWebSocketResponse.sendStrActions, h2]
  · intro host3
    exact ⟨rfl, by simp [ClientWebSocketResponse.sendBytesActions]⟩

/-- Witness for the RateLimit send theorem on host api.coin.z.com. -/
theorem send_str_bytes_rate_limit_witness :
    ClientWebSocketResponse.sendStrActions "api.coin.z.com" "x" 0
        = [SendAction.acquireLock] ++ [SendAction.transmitText "x"]
          ++ [SendAction.statusGet]
          ++ (List.replicate 1 [SendAction.sleepPoll, SendAction.statusGet]).flatten
          ++ [SendAction.releaseLock]
    ∧ (ClientWebSocketResponse.sendStrActions "api.coin.z.com" "x" 0).head?
        = some SendAction.acquireLock
    ∧ SendAction.sleepPoll ∈ ClientWebSocketResponse.sendStrActions "api.coin.z.com" "x" 0
    ∧ (∀ host2 : String, host2 ∉ requestLimitHostItems →
        ClientWebSocketResponse.sendStrActions host2 "x" 0 = [SendAction.transmitText "x"])
    ∧ (∀ host3 : String, ClientWebSocketResponse.sendBytesActions host3 "y"
        = [SendAction.transmitBytes "y"]
      ∧ SendAction.acquireLock ∉ ClientWebSocketResponse.sendBytesActions host3 "y") :=
  send_str_bytes_rate_limit "api.coin.z.com" "x" "y" 0 (by simp [requestLimitHostItems])

/-- Heartbeat.okx's loop sends nothing once the socket is closed: with the
loop's while-condition false, no ping goes out. -/
theorem heartbeatOkxPings_closed_socket (T : ℚ) (fuel : ℕ) (t : ℚ)
    (h : ¬ t < T) : heartbeatOkxPings T fuel t = [] := by
  cases fuel <;> simp [heartbeatOkxPings, h]

/-- C8 (amended): Heartbeat.okx sends "ping" and then sleeps 15 seconds, so
a connection open for 46 seconds observes exactly 4 pings, at t = 0, 15,
30 and 45 seconds — not 3 — and no ping is ever sent at or after the close
time. -/
theorem heartbeat_okx_46_seconds (m : ℕ) :
    heartbeatOkxPings 46 (m + 4) 0 = [0, 15, 30, 45]
    ∧ (∀ (T : ℚ) (fuel : ℕ) (t0 : ℚ), ∀ t ∈ heartbeatOkxPings T fuel t0, t < T) := by
  constructor
  · have h60 : heartbeatOkxPings 46 m 60 = [] :=
      heartbeatOkxPings_closed_socket 46 m 60 (by norm_num)
    norm_num [heartbeatOkxPings, h60]
  · intro T fuel
    induction fuel with
    | zero =>
      intro t0 t ht
      simp [heartbeatOkxPings] at ht
    | succ n ih =>
      intro t0 t ht
      rw [heartbeatOkxPings] at ht
      by_cases h : t0 < T
      · rw [if_pos h] at ht
        rcases List.mem_cons.mp ht with rfl | hmem
        · exact h
        · exact ih _ _ hmem
      · rw [if_neg h] at ht
        simp at ht

/-- C8 counterexample: a connection open 46 seconds observes 4 pings
(t = 0, 15, 30, 45), not the 3 the claim states. -/
theorem heartbeat_okx_46_seconds_counterexample :
    (heartbeatOkxPings 46 10 0).length = 4
    ∧ (heartbeatOkxPings 46 10 0).length ≠ 3 := by
  have h : heartbeatOkxPings 46 10 0 = [0, 15, 30, 45] := by
    norm_num [heartbeatOkxPings]
  rw [h]
  simp

/-- The url attribute after a sequence of operations is the one last
assigned through the setter (or the constructed one): the supervisor's own
operations never touch it. -/
theorem applyAppOps_url (ops : List AppOp) (s : WebSocketAppState) :
    (applyAppOps s ops).url = lastAssignedUrl s.url ops := by
  induction ops generalizing s with
  | nil => rfl
  | cons op rest ih =>
    cases op with
    | setUrlOp u =>
      simpa [applyAppOps, lastAssignedUrl, applyAppOp, WebSocketApp.setUrl]
        using ih { s with url := u }
    | cycleConnectOp =>
      simpa [applyAppOps, lastAssignedUrl, applyAppOp, WebSocketApp.cycleConnect]
        using ih { s with currentWs := some (), eventSet := true }
    | cycleFinallyOp =>
      simpa [applyAppOps, lastAssignedUrl, applyAppOp, WebSocketApp.cycleFinally]
        using ih { s with currentWs := none, eventSet := false }

/-- C9 (amended): every reconnect attempt dials the supervisor's current
_url — the constructed url unless the caller reassigned it through the
public url setter; the supervisor's own cycle-boundary operations never
change it. -/
theorem ws_connect_uses_current_url (u0 : String) (ops : List AppOp) :
    WebSocketApp.connectUrl (applyAppOps (WebSocketApp.mkState u0) ops)
        = lastAssignedUrl u0 ops
    ∧ (∀ s : WebSocketAppState, (WebSocketApp.cycleConnect s).url = s.url
        ∧ (WebSocketApp.cycleFinally s).url = s.url)
    ∧ WebSocketApp.connectUrl (WebSocketApp.mkState u0) = u0 := by
  refine ⟨?_, fun s => ⟨rfl, rfl⟩, rfl⟩
  simpa [WebSocketApp.connectUrl, WebSocketApp.mkState]
    using applyAppOps_url ops (WebSocketApp.mkState u0)

/-- C9 counterexample: after the caller assigns a new url through the
public setter, the next reconnect attempt dials the new url, not the one
the supervisor was constructed with. -/
theorem url_immutability_counterexample :
    WebSocketApp.connectUrl
        (applyAppOps (WebSocketApp.mkState "wss://a.example")
          [AppOp.setUrlOp "wss://b.example"])
      = "wss://b.example"
    ∧ "wss://b.example" ≠ "wss://a.example" := by
  exact ⟨rfl, by simp⟩

/-- C3: when at least one JSON handler is registered and a frame's JSON
decode fails, _onmessage logs exactly the decode warning, schedules no
JSON-handler invocation for that frame, and the read loop still schedules
one dispatch per frame, in arrival order, for every frame of the sequence:
the decode failure never reaches the supervisor. -/
theorem onmessage_json_decode_failure {HS HB HJ J : Type}
    (msgs : List (WSMessage J)) (hS : List HS) (hB : List HB) (hJ : List HJ)
    (i : ℕ) (m : WSMessage J) (e : String)
    (hget : msgs[i]? = some m) (hne : hJ ≠ []) (hdec : m.jsonData = .error e) :
    (WebSocketApp.onmessage m hS hB hJ).2 = [e]
    ∧ (∀ d ∈ (WebSocketApp.onmessage m hS hB hJ).1, d.isCallJson = false)
    ∧ (WebSocketApp.wsReceiveSchedule msgs hS hB hJ).length = msgs.length
    ∧ (∀ (j : ℕ) (m2 : WSMessage J), msgs[j]? = some m2 →
        (WebSocketApp.wsReceiveSchedule msgs hS hB hJ)[j]?
          = some (WebSocketApp.onmessage m2 hS hB hJ)) := by
  have hemp : hJ.isEmpty = false := by simpa [List.isEmpty_iff] using hne
  obtain ⟨k, ds, jd⟩ := m
  simp only [WSMessage.jsonData] at hdec
  subst hdec
  refine ⟨?_, ?_, ?_, ?_⟩
  · simp [WebSocketApp.onmessage, hemp]
  · intro d hd
    cases k <;>
      simp [WebSocketApp.onmessage, hemp, List.mem_map] at hd <;>
      obtain ⟨h0, _, rfl⟩ := hd <;> rfl
  · simp [WebSocketApp.wsReceiveSchedule]
  · intro j m2 hg
    simp [WebSocketApp.wsReceiveSchedule, List.getElem?_map, hg]

/-- Witness for the JSON-decode-failure theorem on a one-frame sequence
whose decode fails, with one registered JSON handler. -/
theorem onmessage_json_decode_failure_witness :
    (WebSocketApp.onmessage (⟨.text, "x", .error "bad"⟩ : WSMessage ℕ)
        ([] : List ℕ) ([] : List ℕ) [7]).2 = ["bad"]
    ∧ (∀ d ∈ (WebSocketApp.onmessage (⟨.text, "x", .error "bad"⟩ : WSMessage ℕ)
        ([] : List ℕ) ([] : List ℕ) [7]).1, d.isCallJson = false)
    ∧ (WebSocketApp.wsReceiveSchedule [(⟨.text, "x", .error "bad"⟩ : WSMessage ℕ)]
        ([] : List ℕ) ([] : List ℕ) [7]).length
        = [(⟨.text, "x", .error "bad"⟩ : WSMessage ℕ)].length
    ∧ (∀ (j : ℕ) (m2 : WSMessage ℕ),
        [(⟨.text, "x", .error "bad"⟩ : WSMessage ℕ)][j]? = some m2 →
        (WebSocketApp.wsReceiveSchedule [(⟨.text, "x", .error "bad"⟩ : WSMessage ℕ)]
            ([] : List ℕ) ([] : List ℕ) [7])[j]?
          = some (WebSocketApp.onmessage m2 ([] : List ℕ) ([] : List ℕ) [7])) :=
  onmessage_json_decode_failure [⟨.text, "x", .error "bad"⟩] [] [] [7] 0
    ⟨.text, "x", .error "bad"⟩ "bad" rfl (by simp) rfl

/-- For a TEXT frame, _onmessage's scheduled invocations are the str-handler
calls, in registration order, followed only by JSON-handler calls. -/
theorem onmessage_text_structure {HS HB HJ J : Type} (m : WSMessage J)
    (hS : List HS) (hB : List HB) (hJ : List HJ) (htext : m.kind = .text) :
    ∃ tail, (WebSocketApp.onmessage m hS hB hJ).1
        = hS.map (fun h => Dispatch.callStr h m.dataStr) ++ tail
      ∧ ∀ d ∈ tail, d.isCallJson = true := by
  obtain ⟨k, ds, jd⟩ := m
  simp only [WSMessage.kind] at htext
  subst htext
  by_cases hemp : hJ.isEmpty
  · exact ⟨[], by simp [WebSocketApp.onmessage, hemp], by simp⟩
  · cases jd with
    | error e =>
      exact ⟨[], by simp [WebSocketApp.onmessage, hemp], by simp⟩
    | ok dval =>
      refine ⟨hJ.map (fun h => Dispatch.callJson h dval),
        by simp [WebSocketApp.onmessage, hemp], ?_⟩
      intro d hd
      obtain ⟨h0, _, rfl⟩ := List.mem_map.mp hd
      rfl

/-- C5: every text frame's dispatch is scheduled at the frame's arrival
position; within that dispatch, the str-handler invocations are exactly one
call per registered handler, in registration order, and each handler
occurrence is invoked exactly once (multiplicity preserved); the schedule
has one entry per frame. -/
theorem ws_receive_text_fanout {HS HB HJ J : Type} [DecidableEq HS]
    [DecidableEq HB] [DecidableEq HJ] [DecidableEq J]
    (msgs : List (WSMessage J)) (hS : List HS) (hB : List HB) (hJ : List HJ)
    (i : ℕ) (m : WSMessage J)
    (hget : msgs[i]? = some m) (htext : m.kind = .text) :
    (WebSocketApp.wsReceiveSchedule msgs hS hB hJ)[i]?
        = some (WebSocketApp.onmessage m hS hB hJ)
    ∧ (WebSocketApp.onmessage m hS hB hJ).1.filter (fun d => d.isCallStr)
        = hS.map (fun h => Dispatch.callStr h m.dataStr)
    ∧ (∀ h0 : HS,
        ((WebSocketApp.onmessage m hS hB hJ).1.filter (fun d => d.isCallStr)).count
            (Dispatch.callStr h0 m.dataStr)
          = hS.count h0)
    ∧ (WebSocketApp.wsReceiveSchedule msgs hS hB hJ).length = msgs.length := by
  obtain ⟨tail, htail, htailj⟩ := onmessage_text_structure m hS hB hJ htext
  have hfilter : (WebSocketApp.onmessage m hS hB hJ).1.filter (fun d => d.isCallStr)
      = hS.map (fun h => Dispatch.callStr h m.dataStr) := by
    rw [htail, List.filter_append]
    have h1 : (hS.map (fun h => (Dispatch.callStr h m.dataStr : Dispatch HS HB HJ J))).filter
        (fun d => d.isCallStr)
        = hS.map (fun h => (Dispatch.callStr h m.dataStr : Dispatch HS HB HJ J)) := by
      apply List.filter_eq_self.mpr
      intro x hx
      obtain ⟨h0, _, rfl⟩ := List.mem_map.mp hx
      rfl
    have h2 : tail.filter (fun d => (d.isCallStr : Bool)) = [] := by
      rw [List.filter_eq_nil_iff]
      intro d hd
      have := htailj d hd
      cases d <;> simp_all [Dispatch.isCallJson, Dispatch.isCallStr]
    rw [h1, h2, List.append_nil]
  refine ⟨?_, hfilter, ?_, ?_⟩
  · simp [WebSocketApp.wsReceiveSchedule, List.getElem?_map, hget]
  · intro h0
    rw [hfilter]
    have hinj : Function.Injective
        (fun h : HS => (Dispatch.callStr h m.dataStr : Dispatch HS HB HJ J)) := by
      intro x y hxy
      simpa using hxy
    exact List.count_map_of_injective hS
      (fun h : HS => (Dispatch.callStr h m.dataStr : Dispatch HS HB HJ J)) hinj h0
  · simp [WebSocketApp.wsReceiveSchedule]

/-- Witness for the text fan-out theorem: one text frame, two registered
str handlers. -/
theorem ws_receive_text_fanout_witness :
    (WebSocketApp.wsReceiveSchedule [(⟨.text, "d", .ok 0⟩ : WSMessage ℕ)]
        [1, 2] ([] : List ℕ) ([] : List ℕ))[0]?
        = some (WebSocketApp.onmessage (⟨.text, "d", .ok 0⟩ : WSMessage ℕ)
            [1, 2] ([] : List ℕ) ([] : List ℕ))
    ∧ (WebSocketApp.onmessage (⟨.text, "d", .ok 0⟩ : WSMessage ℕ)
        [1, 2] ([] : List ℕ) ([] : List ℕ)).1.filter (fun d => d.isCallStr)
        = [1, 2].map (fun h => Dispatch.callStr h "d")
    ∧ (∀ h0 : ℕ,
        ((WebSocketApp.onmessage (⟨.text, "d", .ok 0⟩ : WSMessage ℕ)
            [1, 2] ([] : List ℕ) ([] : List ℕ)).1.filter (fun d => d.isCallStr)).count
            (Dispatch.callStr h0 "d")
          = [1, 2].count h0)
    ∧ (WebSocketApp.wsReceiveSchedule [(⟨.text, "d", .ok 0⟩ : WSMessage ℕ)]
        [1, 2] ([] : List ℕ) ([] : List ℕ)).length
        = [(⟨.text, "d", .ok 0⟩ : WSMessage ℕ)].length :=
  ws_receive_text_fanout [⟨.text, "d", .ok 0⟩] [1, 2] [] [] 0
    ⟨.text, "d", .ok 0⟩ rfl rfl

/-- Invariant of the auth-gated send system when an auth task exists: a
non-_itself caller never transmits before auth completion, and such a
caller is past the gate only when auth has completed. -/
theorem authGate_invariant (itself : ℕ → Bool) (s : AuthGateState)
    (hreach : AuthGateReachable true itself s) :
    ∀ i, itself i = false →
      s.sentBeforeAuth i = false ∧ (1 ≤ s.pc i → s.authDone = true) := by
  induction hreach with
  | refl =>
    intro i _
    refine ⟨rfl, ?_⟩
    intro h
    simp [authGateInit] at h
  | tail hab hstep ih =>
    rename_i b _
    intro i hi
    cases hstep with
    | authFinish hex =>
      exact ⟨(ih i hi).1, fun _ => rfl⟩
    | passGate i0 hits hpc hauth =>
      refine ⟨(ih i hi).1, ?_⟩
      intro hge
      have hge2 : 1 ≤ Function.update b.pc i0 1 i := hge
      by_cases hii : i = i0
      · exact hauth rfl
      · rw [Function.update_noteq hii] at hge2
        exact (ih i hi).2 hge2
    | skipGate i0 htrue hpc =>
      refine ⟨(ih i hi).1, ?_⟩
      intro hge
      have hge2 : 1 ≤ Function.update b.pc i0 1 i := hge
      by_cases hii : i = i0
      · rw [hii, htrue] at hi
        exact Bool.noConfusion hi
      · rw [Function.update_noteq hii] at hge2
        exact (ih i hi).2 hge2
    | transmit i0 hpc1 =>
      by_cases hii : i = i0
      · subst hii
        have hdone : b.authDone = true := (ih i hi).2 (by omega)
        refine ⟨?_, fun _ => hdone⟩
        show Function.update b.sentBeforeAuth i (!b.authDone) i = false
        rw [Function.update_same, hdone]
        rfl
      · refine ⟨?_, ?_⟩
        · show Function.update b.sentBeforeAuth i0 (!b.authDone) i = false
          rw [Function.update_noteq hii]
          exact (ih i hi).1
        · intro hge
          have hge2 : 1 ≤ Function.update b.pc i0 2 i := hge
          rw [Function.update_noteq hii] at hge2
          exact (ih i hi).2 hge2

/-- C1: with an auth task running, a JSON send not marked _itself is never
transmitted before the auth task completes, in every reachable interleaving
of concurrent callers; and an _itself-marked send can transmit while auth
is still incomplete (as the Auth hook's own handshake must). -/
theorem send_json_auth_gate (itself : ℕ → Bool) (s : AuthGateState)
    (hreach : AuthGateReachable true itself s) :
    (∀ i, itself i = false → s.sentBeforeAuth i = false)
    ∧ (∃ t : AuthGateState, AuthGateReachable true (fun _ => true) t
        ∧ t.sentBeforeAuth 0 = true ∧ t.authDone = false) := by
  constructor
  · intro i hi
    exact (authGate_invariant itself s hreach i hi).1
  · have h1 : AuthGateStep true (fun _ => true) authGateInit
        { authGateInit with pc := Function.update authGateInit.pc 0 1 } :=
      AuthGateStep.skipGate authGateInit 0 rfl rfl
    have h2 : AuthGateStep true (fun _ => true)
        { authGateInit with pc := Function.update authGateInit.pc 0 1 }
        { authGateInit with
            pc := Function.update (Function.update authGateInit.pc 0 1) 0 2,
            sentBeforeAuth := Function.update authGateInit.sentBeforeAuth 0 true } := by
      have h3 := @AuthGateStep.transmit true (fun _ => true)
        { authGateInit with pc := Function.update authGateInit.pc 0 1 } 0
        (by simp [Function.update])
      simpa [authGateInit] using h3
    refine ⟨_, Relation.ReflTransGen.tail (Relation.ReflTransGen.tail
      Relation.ReflTransGen.refl h1) h2, by simp [Function.update], rfl⟩

/-- Witness for the auth gate theorem at the initial state with no _itself
callers: nothing has been transmitted before auth there, and the bypass
trace exists. -/
theorem send_json_auth_gate_witness :
    (∀ i, (fun _ => false) i = false → authGateInit.sentBeforeAuth i = false)
    ∧ (∃ t : AuthGateState, AuthGateReachable true (fun _ => true) t
        ∧ t.sentBeforeAuth 0 = true ∧ t.authDone = false) :=
  send_json_auth_gate (fun _ => false) authGateInit Relation.ReflTransGen.refl

/-- Looking up the key just assigned by dictSet yields the new value. -/
theorem jLookup_dictSet_self (d : List (String × JVal)) (k : String) (v : JVal) :
    jLookup (dictSet d k v) k = some v := by
  induction d with
  | nil => simp [dictSet, jLookup]
  | cons p rest ih =>
    obtain ⟨k0, v0⟩ := p
    by_cases h : k0 = k
    · subst h
      simp [dictSet, jLookup]
    · simp [dictSet, jLookup, h, ih]

/-- dictSet leaves every other key's binding unchanged. -/
theorem jLookup_dictSet_other (d : List (String × JVal)) (k k2 : String)
    (v : JVal) (h : k2 ≠ k) :
    jLookup (dictSet d k v) k2 = jLookup d k2 := by
  induction d with
  | nil => simp [dictSet, jLookup, Ne.symm h]
  | cons p rest ih =>
    obtain ⟨k0, v0⟩ := p
    by_cases h0 : k0 = k
    · subst h0
      simp [dictSet, jLookup, Ne.symm h]
    · simp [dictSet, jLookup, h0, ih]

/-- C4 (amended): the MessageSign hook mutates a JSON payload only when the
host has a registered sign hook, credentials for its account are available,
the send leaves the auth keyword at its default, the payload is non-empty,
the connection URL path starts with "/ws-api", and the payload's "params"
field is dict-valued; when all of these hold it injects the API key and the
timestamp into params and sets params["signature"] to the HMAC (keyed by the
secret) of the "&"-joined "param=value" encoding, in sorted key order, of
the params entries after that injection, leaving all other entries and
fields unchanged; in every other case the payload is transmitted
unchanged. -/
theorem send_json_message_sign (hmacHex : String → String → String)
    (host path name key secret : String)
    (apis : List (String × (String × String))) (ts : ℤ)
    (data params : List (String × JVal))
    (hhost : assocLookup messageSignHostItems host = some name)
    (hcreds : assocLookup apis name = some (key, secret))
    (hpath : strStartsWith path "/ws-api" = true)
    (hparams : jLookup data "params" = some (.jobj params)) :
    (∃ params3,
        jLookup (sendJsonApplySign hmacHex host path apis true ts data) "params"
          = some (.jobj params3)
      ∧ jLookup params3 "apiKey" = some (.jstr key)
      ∧ jLookup params3 "timestamp" = some (.jint ts)
      ∧ jLookup params3 "signature"
          = some (.jstr (hmacHex secret (signPayload
              (dictSet (dictSet params "apiKey" (.jstr key)) "timestamp" (.jint ts)))))
      ∧ ∀ k2, k2 ≠ "apiKey" → k2 ≠ "timestamp" → k2 ≠ "signature" →
          jLookup params3 k2 = jLookup params k2)
    ∧ (∀ k2, k2 ≠ "params" →
        jLookup (sendJsonApplySign hmacHex host path apis true ts data) k2
          = jLookup data k2)
    ∧ (∀ (path2 : String) (data2 : List (String × JVal)),
        strStartsWith path2 "/ws-api" = false →
        MessageSign.binance hmacHex key secret path2 ts data2 = data2)
    ∧ (∀ (path2 : String) (data2 : List (String × JVal)),
        jLookup data2 "params" = none →
        MessageSign.binance hmacHex key secret path2 ts data2 = data2)
    ∧ (∀ (path2 : String) (data2 : List (String × JVal)) (v : JVal),
        jLookup data2 "params" = some v → (∀ fields, v ≠ JVal.jobj fields) →
        MessageSign.binance hmacHex key secret path2 ts data2 = data2)
    ∧ (∀ (host2 : String) (data2 : List (String × JVal)),
        assocLookup messageSignHostItems host2 = none →
        sendJsonApplySign hmacHex host2 path apis true ts data2 = data2)
    ∧ (∀ (host2 name2 : String) (data2 : List (String × JVal)),
        assocLookup messageSignHostItems host2 = some name2 →
        assocLookup apis name2 = none →
        sendJsonApplySign hmacHex host2 path apis true ts data2 = data2)
    ∧ (∀ data2 : List (String × JVal),
        sendJsonApplySign hmacHex host path apis false ts data2 = data2)
    ∧ sendJsonApplySign hmacHex host path apis true ts [] = [] := by
  have hdata_ne : data.isEmpty = false := by
    cases data with
    | nil => simp [jLookup] at hparams
    | cons p rest => rfl
  have hresult : sendJsonApplySign hmacHex host path apis true ts data
      = dictSet data "params"
          (.jobj (dictSet
            (dictSet (dictSet params "apiKey" (.jstr key)) "timestamp" (.jint ts))
            "signature"
            (.jstr (hmacHex secret (signPayload
              (dictSet (dictSet params "apiKey" (.jstr key)) "timestamp" (.jint ts))))))) := by
    simp only [sendJsonApplySign, if_true, hhost, hcreds, hdata_ne,
      Bool.false_eq_true]
    simp only [MessageSign.binance, hpath, Bool.not_eq_true, if_neg, hparams]
    simp
  refine ⟨?_, ?_, ?_, ?_, ?_, ?_, ?_, fun data2 => rfl, ?_⟩
  · refine ⟨dictSet
        (dictSet (dictSet params "apiKey" (.jstr key)) "timestamp" (.jint ts))
        "signature"
        (.jstr (hmacHex secret (signPayload
          (dictSet (dictSet params "apiKey" (.jstr key)) "timestamp" (.jint ts))))),
      ?_, ?_, ?_, ?_, ?_⟩
    · rw [hresult]
      exact jLookup_dictSet_self data "params" _
    · rw [jLookup_dictSet_other _ _ _ _ (by decide),
        jLookup_dictSet_other _ _ _ _ (by decide),
        jLookup_dictSet_self]
    · rw [jLookup_dictSet_other _ _ _ _ (by decide), jLookup_dictSet_self]
    · rw [jLookup_dictSet_self]
    · intro k2 h1 h2 h3
      rw [jLookup_dictSet_other _ _ _ _ h3, jLookup_dictSet_other _ _ _ _ h2,
        jLookup_dictSet_other _ _ _ _ h1]
  · intro k2 hk2
    rw [hresult, jLookup_dictSet_other _ _ _ _ hk2]
  · intro path2 data2 hp2
    simp [MessageSign.binance, hp2]
  · intro path2 data2 hnone
    by_cases hs2 : strStartsWith path2 "/ws-api" <;>
      simp [MessageSign.binance, hs2, hnone]
  · intro path2 data2 v hv hnot
    by_cases hs2 : strStartsWith path2 "/ws-api"
    · simp only [MessageSign.binance, hs2, Bool.not_eq_true, if_neg, hv]
      cases v with
      | jobj fields => exact absurd rfl (hnot fields)
      | jstr s => simp
      | jint n => simp
      | jbool b => simp
      | jnull => simp
      | jarr elems => simp
    · simp [MessageSign.binance, hs2]
  · intro host2 data2 hnone
    simp [sendJsonApplySign, hnone]
  · intro host2 name2 data2 hsome hnone
    simp [sendJsonApplySign, hsome, hnone]
  · simp [sendJsonApplySign, hhost, hcreds]

/-- C4 counterexample: on registered host ws-api.binance.com with
credentials available and a dict-valued "params" field, a send whose URL
path is "/stream" is transmitted unchanged — no apiKey, timestamp or
signature is injected — because MessageSign.binance also requires the path
to start with "/ws-api", a condition the claim omits. -/
theorem send_json_message_sign_counterexample :
    assocLookup messageSignHostItems "ws-api.binance.com" = some "binance"
    ∧ assocLookup [("binance", (("K" : String), ("S" : String)))] "binance"
        = some ("K", "S")
    ∧ jLookup [("params", JVal.jobj [])] "params" = some (JVal.jobj [])
    ∧ sendJsonApplySign (fun _ s => s) "ws-api.binance.com" "/stream"
        [("binance", ("K", "S"))] true 1 [("params", JVal.jobj [])]
        = [("params", JVal.jobj [])]
    ∧ jLookup ([] : List (String × JVal)) "signature" = none := by
  refine ⟨?_, ?_, ?_, ?_, rfl⟩
  · simp [assocLookup, messageSignHostItems]
  · simp [assocLookup]
  · simp [jLookup]
  · have hfalse : strStartsWith "/stream" "/ws-api" = false := by decide
    simp [sendJsonApplySign, assocLookup, messageSignHostItems,
      MessageSign.binance, hfalse]

/-- Witness for the MessageSign theorem at a concrete signed payload on
path /ws-api/v3. -/
theorem send_json_message_sign_witness :
    ∃ params3,
      jLookup (sendJsonApplySign (fun _ s => s) "ws-api.binance.com" "/ws-api/v3"
          [("binance", ("K", "S"))] true 1700000000000
          [("id", JVal.jint 1),
           ("params", JVal.jobj [("symbol", JVal.jstr "BTCUSDT")])]) "params"
        = some (JVal.jobj params3)
      ∧ jLookup params3 "apiKey" = some (JVal.jstr "K")
      ∧ jLookup params3 "timestamp" = some (JVal.jint 1700000000000)
      ∧ jLookup params3 "signature"
          = some (JVal.jstr (signPayload
              (dictSet (dictSet [("symbol", JVal.jstr "BTCUSDT")]
                "apiKey" (JVal.jstr "K")) "timestamp" (JVal.jint 1700000000000))))
      ∧ ∀ k2, k2 ≠ "apiKey" → k2 ≠ "timestamp" → k2 ≠ "signature" →
          jLookup params3 k2 = jLookup [("symbol", JVal.jstr "BTCUSDT")] k2 :=
  (send_json_message_sign (fun _ s => s) "ws-api.binance.com" "/ws-api/v3"
    "binance" "K" "S" [("binance", ("K", "S"))] 1700000000000
    [("id", JVal.jint 1), ("params", JVal.jobj [("symbol", JVal.jstr "BTCUSDT")])]
    [("symbol", JVal.jstr "BTCUSDT")]
    (by simp [assocLookup, messageSignHostItems]) (by simp [assocLookup])
    (by decide) (by simp [jLookup])).1

/-- Auth.bybit's loop consumes a BINARY frame and continues unchanged. -/
theorem bybitAuthLoop_binary_step (m : WSMessage JVal) (r : List (WSMessage JVal))
    (hm : m.kind = .binary) : bybitAuthLoop (m :: r) = (bybitAuthLoop r).afterOne 0 := by
  obtain ⟨k, ds, jd⟩ := m
  simp only [WSMessage.kind] at hm
  subst hm
  rfl

/-- Auth.bitflyer's loop consumes a BINARY frame and continues unchanged. -/
theorem bitflyerAuthLoop_binary_step (m : WSMessage JVal) (r : List (WSMessage JVal))
    (hm : m.kind = .binary) : bitflyerAuthLoop (m :: r) = (bitflyerAuthLoop r).afterOne 0 := by
  obtain ⟨k, ds, jd⟩ := m
  simp only [WSMessage.kind] at hm
  subst hm
  rfl

/-- Auth.phemex's loop consumes a BINARY frame and continues unchanged. -/
theorem phemexAuthLoop_binary_step (m : WSMessage JVal) (r : List (WSMessage JVal))
    (hm : m.kind = .binary) : phemexAuthLoop (m :: r) = (phemexAuthLoop r).afterOne 0 := by
  obtain ⟨k, ds, jd⟩ := m
  simp only [WSMessage.kind] at hm
  subst hm
  rfl

/-- Auth.okx's loop consumes a BINARY frame and continues unchanged. -/
theorem okxAuthLoop_binary_step (m : WSMessage JVal) (r : List (WSMessage JVal))
    (hm : m.kind = .binary) : okxAuthLoop (m :: r) = (okxAuthLoop r).afterOne 0 := by
  obtain ⟨k, ds, jd⟩ := m
  simp only [WSMessage.kind] at hm
  subst hm
  rfl

/-- Auth.bitget's loop consumes a BINARY frame and continues unchanged. -/
theorem bitgetAuthLoop_binary_step (m : WSMessage JVal) (r : List (WSMessage JVal))
    (hm : m.kind = .binary) : bitgetAuthLoop (m :: r) = (bitgetAuthLoop r).afterOne 0 := by
  obtain ⟨k, ds, jd⟩ := m
  simp only [WSMessage.kind] at hm
  subst hm
  rfl

/-- Reading through a run of BINARY frames adds their number to the frames
an Auth read loop consumes and leaves its warnings and ending unchanged. -/
theorem authLoop_binary_shift (f : List (WSMessage JVal) → LoopOut)
    (hstep : ∀ (m : WSMessage JVal) (r : List (WSMessage JVal)), m.kind = .binary →
      f (m :: r) = (f r).afterOne 0)
    (pre : List (WSMessage JVal)) (hpre : ∀ m ∈ pre, m.kind = .binary)
    (rest : List (WSMessage JVal)) :
    (f (pre ++ rest)).consumed = pre.length + (f rest).consumed
    ∧ (f (pre ++ rest)).warnings = (f rest).warnings
    ∧ (f (pre ++ rest)).ending = (f rest).ending := by
  induction pre with
  | nil => simp
  | cons m tl ih =>
    have hm : m.kind = .binary := hpre m (by simp)
    have htl : ∀ m2 ∈ tl, m2.kind = .binary := fun m2 h2 => hpre m2 (by simp [h2])
    rw [List.cons_append, hstep m (tl ++ rest) hm]
    have hh := ih htl
    refine ⟨?_, ?_, ?_⟩
    · simp only [LoopOut.afterOne, hh.1, List.length_cons]
      omega
    · simpa [LoopOut.afterOne] using hh.2.1
    · simpa [LoopOut.afterOne] using hh.2.2

/-- Reading through a mixed run of BINARY frames and copies of a given
warn-and-continue frame adds the run's length to the frames an Auth read
loop consumes and the number of warn frames to its warnings, leaving the
ending unchanged.  The run is given as a tagged list: tag true marks the
warn frame, tag false a BINARY frame. -/
theorem authLoop_tagged_shift (f : List (WSMessage JVal) → LoopOut)
    (ffail : WSMessage JVal)
    (hbin : ∀ (m : WSMessage JVal) (r : List (WSMessage JVal)), m.kind = .binary →
      f (m :: r) = (f r).afterOne 0)
    (hfail : ∀ r : List (WSMessage JVal), f (ffail :: r) = (f r).afterOne 1)
    (sel : List (WSMessage JVal × Bool))
    (hsel : ∀ p ∈ sel, (p.2 = true → p.1 = ffail) ∧ (p.2 = false → p.1.kind = .binary))
    (rest : List (WSMessage JVal)) :
    (f (sel.map Prod.fst ++ rest)).consumed = sel.length + (f rest).consumed
    ∧ (f (sel.map Prod.fst ++ rest)).warnings
        = (sel.map Prod.snd).count true + (f rest).warnings
    ∧ (f (sel.map Prod.fst ++ rest)).ending = (f rest).ending := by
  induction sel with
  | nil => simp
  | cons p tl ih =>
    obtain ⟨m, b⟩ := p
    have hp := hsel (m, b) (by simp)
    have htl : ∀ q ∈ tl, (q.2 = true → q.1 = ffail) ∧ (q.2 = false → q.1.kind = .binary) :=
      fun q hq => hsel q (by simp [hq])
    have hh := ih htl
    cases b with
    | true =>
      have hm : m = ffail := hp.1 rfl
      subst hm
      rw [List.map_cons, List.cons_append, hfail]
      refine ⟨?_, ?_, ?_⟩
      · simp only [LoopOut.afterOne, hh.1, List.length_cons]
        omega
      · simp only [LoopOut.afterOne, hh.2.1, List.map_cons, List.count_cons]
        simp
        omega
      · simpa [LoopOut.afterOne] using hh.2.2
    | false =>
      have hm : m.kind = .binary := hp.2 rfl
      rw [List.map_cons, List.cons_append, hbin m _ hm]
      refine ⟨?_, ?_, ?_⟩
      · simp only [LoopOut.afterOne, hh.1, List.length_cons]
        omega
      · simp only [LoopOut.afterOne, hh.2.1, List.map_cons, List.count_cons]
        simp
      · simpa [LoopOut.afterOne] using hh.2.2

/-- Auth.bybit's loop logs one warning on a falsy-"success" frame and
continues reading. -/
theorem bybitAuthLoop_failure_step (r : List (WSMessage JVal)) :
    bybitAuthLoop (authFailureFrame .bybit :: r) = (bybitAuthLoop r).afterOne 1 := rfl

/-- Auth.bitflyer's loop logs one warning on an "error"-keyed frame and
continues reading. -/
theorem bitflyerAuthLoop_failure_step (r : List (WSMessage JVal)) :
    bitflyerAuthLoop (authFailureFrame .bitflyer :: r)
      = (bitflyerAuthLoop r).afterOne 1 := rfl

/-- Auth.phemex's loop logs one warning on a non-null-"error" frame and
continues reading. -/
theorem phemexAuthLoop_failure_step (r : List (WSMessage JVal)) :
    phemexAuthLoop (authFailureFrame .phemex :: r)
      = (phemexAuthLoop r).afterOne 1 := rfl

/-- Auth.okx's loop logs one warning on an "error"-event frame and
continues reading. -/
theorem okxAuthLoop_failure_step (r : List (WSMessage JVal)) :
    okxAuthLoop (authFailureFrame .okx :: r) = (okxAuthLoop r).afterOne 1 := rfl

/-- Auth.bitget's loop logs one warning on an "error"-event frame and then
breaks. -/
theorem bitgetAuthLoop_failure_break (r : List (WSMessage JVal)) :
    bitgetAuthLoop (authFailureFrame .bitget :: r) = ⟨1, 1, .warnBreakEnd⟩ := rfl

/-- C6 (amended): every hook registered in AuthHosts, run on a connection
it does not skip (Auth.bybit skips paths containing "public" or starting
with "/spot/quote", Auth.okx skips paths ending in "public"), sends exactly
one handshake payload, always marked _itself so it bypasses the Auth send
gate; every registered hook except Auth.mexc then reads inbound frames —
consuming frames its predicates ignore, logging one warning per
failure-shaped frame (Auth.bitget breaks after its warning) — until its
success predicate or a socket-error frame breaks the loop, and a TypeError
from probing a non-container payload ends the hook; Auth.mexc returns
immediately after sending, reading no frames at all. -/
theorem auth_hooks_run (env : AuthEnv) (path : String) :
    (∀ e ∈ authHostItems, ∀ frames : List (WSMessage JVal),
        ((runAuthHook e.2.2 env path frames).sent.length
            = if authSkipsPath e.2.2 path = true then 0 else 1)
      ∧ (∀ p ∈ (runAuthHook e.2.2 env path frames).sent, p.2 = true))
    ∧ (∀ frames : List (WSMessage JVal),
        (runAuthHook AuthName.mexc env path frames).loopOut.consumed = 0
      ∧ (runAuthHook AuthName.mexc env path frames).loopOut.ending = LoopEnd.noLoopEnd)
    ∧ (∀ n : AuthName, n ≠ AuthName.mexc → authSkipsPath n path = false →
        ∀ (pre rest : List (WSMessage JVal)), (∀ m ∈ pre, m.kind = WSKind.binary) →
          (runAuthHook n env path (pre ++ authSuccessFrame n :: rest)).loopOut.consumed
              = pre.length + 1
          ∧ (runAuthHook n env path (pre ++ authSuccessFrame n :: rest)).loopOut.ending
              = LoopEnd.successEnd
          ∧ (runAuthHook n env path (pre ++ socketErrorFrame :: rest)).loopOut.consumed
              = pre.length + 1
          ∧ (runAuthHook n env path (pre ++ socketErrorFrame :: rest)).loopOut.ending
              = LoopEnd.errorEnd)
    ∧ (∀ n : AuthName,
        (n = AuthName.bybit ∨ n = AuthName.bitflyer ∨ n = AuthName.phemex
          ∨ n = AuthName.okx) →
        authSkipsPath n path = false →
        ∀ sel : List (WSMessage JVal × Bool),
          (∀ p ∈ sel, (p.2 = true → p.1 = authFailureFrame n)
            ∧ (p.2 = false → p.1.kind = WSKind.binary)) →
        ∀ rest : List (WSMessage JVal),
          (runAuthHook n env path
              (sel.map Prod.fst ++ authSuccessFrame n :: rest)).loopOut.consumed
            = sel.length + 1
          ∧ (runAuthHook n env path
              (sel.map Prod.fst ++ authSuccessFrame n :: rest)).loopOut.warnings
            = (sel.map Prod.snd).count true
          ∧ (runAuthHook n env path
              (sel.map Prod.fst ++ authSuccessFrame n :: rest)).loopOut.ending
            = LoopEnd.successEnd)
    ∧ (∀ (pre rest : List (WSMessage JVal)), (∀ m ∈ pre, m.kind = WSKind.binary) →
        (runAuthHook AuthName.bitget env path
            (pre ++ authFailureFrame AuthName.bitget :: rest)).loopOut.consumed
          = pre.length + 1
        ∧ (runAuthHook AuthName.bitget env path
            (pre ++ authFailureFrame AuthName.bitget :: rest)).loopOut.warnings = 1
        ∧ (runAuthHook AuthName.bitget env path
            (pre ++ authFailureFrame AuthName.bitget :: rest)).loopOut.ending
          = LoopEnd.warnBreakEnd)
    ∧ (∀ n : AuthName, n ≠ AuthName.mexc → authSkipsPath n path = false →
        ∀ rest : List (WSMessage JVal),
          (runAuthHook n env path (nonContainerFrame :: rest)).loopOut
            = ⟨1, 0, LoopEnd.raisedEnd⟩) := by
  have hper : ∀ n : AuthName, ∀ frames : List (WSMessage JVal),
      ((runAuthHook n env path frames).sent.length
          = if authSkipsPath n path = true then 0 else 1)
      ∧ (∀ p ∈ (runAuthHook n env path frames).sent, p.2 = true) := by
    intro n frames
    cases n with
    | bybit =>
      by_cases h : (strContains path "public" || strStartsWith path "/spot/quote") = true
      · refine ⟨by simp [runAuthHook, authSkipsPath, h], ?_⟩
        intro p hp
        simp [runAuthHook, h] at hp
      · refine ⟨by simp [runAuthHook, authSkipsPath, h], ?_⟩
        intro p hp
        simp [runAuthHook, h] at hp
        simp [hp]
    | okx =>
      by_cases h : strEndsWith path "public" = true
      · refine ⟨by simp [runAuthHook, authSkipsPath, h], ?_⟩
        intro p hp
        simp [runAuthHook, h] at hp
      · refine ⟨by simp [runAuthHook, authSkipsPath, h], ?_⟩
        intro p hp
        simp [runAuthHook, h] at hp
        simp [hp]
    | bitflyer =>
      refine ⟨by simp [runAuthHook, authSkipsPath], ?_⟩
      intro p hp
      simp [runAuthHook] at hp
      simp [hp]
    | phemex =>
      refine ⟨by simp [runAuthHook, authSkipsPath], ?_⟩
      intro p hp
      simp [runAuthHook] at hp
      simp [hp]
    | bitget =>
      refine ⟨by simp [runAuthHook, authSkipsPath], ?_⟩
      intro p hp
      simp [runAuthHook] at hp
      simp [hp]
    | mexc =>
      refine ⟨by simp [runAuthHook, authSkipsPath], ?_⟩
      intro p hp
      simp [runAuthHook] at hp
      simp [hp]
  refine ⟨fun e _ frames => hper e.2.2 frames, fun frames => ⟨rfl, rfl⟩, ?_, ?_, ?_, ?_⟩
  case _ =>
    intro n hne hskip pre rest hpre
    cases n with
    | mexc => exact absurd rfl hne
    | bybit =>
      have hc : (strContains path "public" || strStartsWith path "/spot/quote") = false := by
        simpa [authSkipsPath] using hskip
      have h1 := authLoop_binary_shift bybitAuthLoop bybitAuthLoop_binary_step pre hpre
        (authSuccessFrame .bybit :: rest)
      have h2 := authLoop_binary_shift bybitAuthLoop bybitAuthLoop_binary_step pre hpre
        (socketErrorFrame :: rest)
      have hsuc : bybitAuthLoop (authSuccessFrame .bybit :: rest) = ⟨1, 0, .successEnd⟩ := rfl
      have herr : bybitAuthLoop (socketErrorFrame :: rest) = ⟨1, 0, .errorEnd⟩ := rfl
      refine ⟨?_, ?_, ?_, ?_⟩ <;>
        simp [runAuthHook, hc, h1.1, h1.2, h2.1, h2.2, hsuc, herr]
    | bitflyer =>
      have h1 := authLoop_binary_shift bitflyerAuthLoop bitflyerAuthLoop_binary_step pre hpre
        (authSuccessFrame .bitflyer :: rest)
      have h2 := authLoop_binary_shift bitflyerAuthLoop bitflyerAuthLoop_binary_step pre hpre
        (socketErrorFrame :: rest)
      have hsuc : bitflyerAuthLoop (authSuccessFrame .bitflyer :: rest)
          = ⟨1, 0, .successEnd⟩ := rfl
      have herr : bitflyerAuthLoop (socketErrorFrame :: rest) = ⟨1, 0, .errorEnd⟩ := rfl
      refine ⟨?_, ?_, ?_, ?_⟩ <;>
        simp [runAuthHook, h1.1, h1.2, h2.1, h2.2, hsuc, herr]
    | phemex =>
      have h1 := authLoop_binary_shift phemexAuthLoop phemexAuthLoop_binary_step pre hpre
        (authSuccessFrame .phemex :: rest)
      have h2 := authLoop_binary_shift phemexAuthLoop phemexAuthLoop_binary_step pre hpre
        (socketErrorFrame :: rest)
      have hsuc : phemexAuthLoop (authSuccessFrame .phemex :: rest)
          = ⟨1, 0, .successEnd⟩ := rfl
      have herr : phemexAuthLoop (socketErrorFrame :: rest) = ⟨1, 0, .errorEnd⟩ := rfl
      refine ⟨?_, ?_, ?_, ?_⟩ <;>
        simp [runAuthHook, h1.1, h1.2, h2.1, h2.2, hsuc, herr]
    | okx =>
      have hc : strEndsWith path "public" = false := by
        simpa [authSkipsPath] using hskip
      have h1 := authLoop_binary_shift okxAuthLoop okxAuthLoop_binary_step pre hpre
        (authSuccessFrame .okx :: rest)
      have h2 := authLoop_binary_shift okxAuthLoop okxAuthLoop_binary_step pre hpre
        (socketErrorFrame :: rest)
      have hsuc : okxAuthLoop (authSuccessFrame .okx :: rest) = ⟨1, 0, .successEnd⟩ := rfl
      have herr : okxAuthLoop (socketErrorFrame :: rest) = ⟨1, 0, .errorEnd⟩ := rfl
      refine ⟨?_, ?_, ?_, ?_⟩ <;>
        simp [runAuthHook, hc, h1.1, h1.2, h2.1, h2.2, hsuc, herr]
    | bitget =>
      have h1 := authLoop_binary_shift bitgetAuthLoop bitgetAuthLoop_binary_step pre hpre
        (authSuccessFrame .bitget :: rest)
      have h2 := authLoop_binary_shift bitgetAuthLoop bitgetAuthLoop_binary_step pre hpre
        (socketErrorFrame :: rest)
      have hsuc : bitgetAuthLoop (authSuccessFrame .bitget :: rest) = ⟨1, 0, .successEnd⟩ := rfl
      have herr : bitgetAuthLoop (socketErrorFrame :: rest) = ⟨1, 0, .errorEnd⟩ := rfl
      refine ⟨?_, ?_, ?_, ?_⟩ <;>
        simp [runAuthHook, h1.1, h1.2, h2.1, h2.2, hsuc, herr]
  case _ =>
    intro n hn hskip sel hsel rest
    rcases hn with rfl | rfl | rfl | rfl
    · have hc : (strContains path "public" || strStartsWith path "/spot/quote") = false := by
        simpa [authSkipsPath] using hskip
      have hsh := authLoop_tagged_shift bybitAuthLoop (authFailureFrame .bybit)
        bybitAuthLoop_binary_step bybitAuthLoop_failure_step sel hsel
        (authSuccessFrame .bybit :: rest)
      have hsuc : bybitAuthLoop (authSuccessFrame .bybit :: rest) = ⟨1, 0, .successEnd⟩ := rfl
      refine ⟨?_, ?_, ?_⟩ <;>
        simp [runAuthHook, hc, hsh.1, hsh.2.1, hsh.2.2, hsuc]
    · have hsh := authLoop_tagged_shift bitflyerAuthLoop (authFailureFrame .bitflyer)
        bitflyerAuthLoop_binary_step bitflyerAuthLoop_failure_step sel hsel
        (authSuccessFrame .bitflyer :: rest)
      have hsuc : bitflyerAuthLoop (authSuccessFrame .bitflyer :: rest)
          = ⟨1, 0, .successEnd⟩ := rfl
      refine ⟨?_, ?_, ?_⟩ <;>
        simp [runAuthHook, hsh.1, hsh.2.1, hsh.2.2, hsuc]
    · have hsh := authLoop_tagged_shift phemexAuthLoop (authFailureFrame .phemex)
        phemexAuthLoop_binary_step phemexAuthLoop_failure_step sel hsel
        (authSuccessFrame .phemex :: rest)
      have hsuc : phemexAuthLoop (authSuccessFrame .phemex :: rest)
          = ⟨1, 0, .successEnd⟩ := rfl
      refine ⟨?_, ?_, ?_⟩ <;>
        simp [runAuthHook, hsh.1, hsh.2.1, hsh.2.2, hsuc]
    · have hc : strEndsWith path "public" = false := by
        simpa [authSkipsPath] using hskip
      have hsh := authLoop_tagged_shift okxAuthLoop (authFailureFrame .okx)
        okxAuthLoop_binary_step okxAuthLoop_failure_step sel hsel
        (authSuccessFrame .okx :: rest)
      have hsuc : okxAuthLoop (authSuccessFrame .okx :: rest) = ⟨1, 0, .successEnd⟩ := rfl
      refine ⟨?_, ?_, ?_⟩ <;>
        simp [runAuthHook, hc, hsh.1, hsh.2.1, hsh.2.2, hsuc]
  case _ =>
    intro pre rest hpre
    have hsh := authLoop_binary_shift bitgetAuthLoop bitgetAuthLoop_binary_step pre hpre
      (authFailureFrame .bitget :: rest)
    have hbrk : bitgetAuthLoop (authFailureFrame .bitget :: rest)
        = ⟨1, 1, .warnBreakEnd⟩ := bitgetAuthLoop_failure_break rest
    refine ⟨?_, ?_, ?_⟩ <;>
      simp [runAuthHook, hsh.1, hsh.2.1, hsh.2.2, hbrk]
  case _ =>
    intro n hne hskip rest
    cases n with
    | mexc => exact absurd rfl hne
    | bybit =>
      have hc : (strContains path "public" || strStartsWith path "/spot/quote") = false := by
        simpa [authSkipsPath] using hskip
      have hr : bybitAuthLoop (nonContainerFrame :: rest) = ⟨1, 0, .raisedEnd⟩ := rfl
      simp [runAuthHook, hc, hr]
    | bitflyer =>
      have hr : bitflyerAuthLoop (nonContainerFrame :: rest) = ⟨1, 0, .raisedEnd⟩ := rfl
      simp [runAuthHook, hr]
    | phemex =>
      have hr : phemexAuthLoop (nonContainerFrame :: rest) = ⟨1, 0, .raisedEnd⟩ := rfl
      simp [runAuthHook, hr]
    | okx =>
      have hc : strEndsWith path "public" = false := by
        simpa [authSkipsPath] using hskip
      have hr : okxAuthLoop (nonContainerFrame :: rest) = ⟨1, 0, .raisedEnd⟩ := rfl
      simp [runAuthHook, hc, hr]
    | bitget =>
      have hr : bitgetAuthLoop (nonContainerFrame :: rest) = ⟨1, 0, .raisedEnd⟩ := rfl
      simp [runAuthHook, hr]

/-- C6 counterexample: Auth.mexc, a registered hook, sends its handshake
and returns without reading any inbound frame — even a socket-error frame
is never consumed, refuting "reads inbound frames until ... the socket
errors"; and Auth.bybit on the public path /realtime_public sends no
handshake payload at all, refuting "sends exactly one handshake
payload". -/
theorem auth_hooks_counterexample :
    (runAuthHook AuthName.mexc cexAuthEnv "/ws" [socketErrorFrame]).loopOut.consumed = 0
    ∧ (runAuthHook AuthName.mexc cexAuthEnv "/ws" [socketErrorFrame]).loopOut.ending
        = LoopEnd.noLoopEnd
    ∧ (runAuthHook AuthName.bybit cexAuthEnv "/realtime_public" []).sent = [] := by
  refine ⟨rfl, rfl, ?_⟩
  have h : strContains "/realtime_public" "public" = true := by decide
  simp [runAuthHook, h]
